import Mathlib

/-!
Verification development for the appointment-booking core of the
`Bot_Estetiste` repository (a multi-tenant WhatsApp booking backend).

The Python source is shallowly embedded: datastore tables become lists of
row structures, each fallible datastore query gets an explicit failure
oracle (modelling the `try/except` blocks around it), wall-clock instants
become natural numbers counting minutes since an arbitrary epoch (so a
calendar date is `t / 1440` and a time of day is `t % 1440`), and calendar
dates are day indices with `weekday d = d % 7` (day 0 is a Monday).
Strings such as error messages are kept verbatim from the source.
-/

set_option autoImplicit false

namespace Bot

/-- Appointment status values stored in the `status` column
(`src/tools/appointment_tools.py`, `availability_tools.py`). -/
inductive Status where
  | pending
  | confirmed
  | in_service
  | completed
  | canceled
  deriving DecidableEq, Repr

/-- Render a status the way the Python code interpolates `appt['status']`
into messages. -/
def Status.str : Status → String
  | .pending => "pending"
  | .confirmed => "confirmed"
  | .in_service => "in_service"
  | .completed => "completed"
  | .canceled => "canceled"

/-- Row of the `closures` table (columns used by `check_availability`). -/
structure ClosureRow where
  tenant_id : String
  date : Nat
  staff_id : Option String
  reason : Option String
  deriving DecidableEq, Repr

/-- Row of the `staff` table (columns used by the embedded functions). -/
structure StaffRow where
  id : String
  name : String
  tenant_id : String
  is_active : Bool
  deriving DecidableEq, Repr

/-- Row of the `working_hours` table; `start_time`/`end_time` are minutes of
the day (the source parses the `"HH:MM"` strings into times). -/
structure WhRow where
  staff_id : String
  weekday : Nat
  start_time : Nat
  end_time : Nat
  deriving DecidableEq, Repr

/-- Row of the `services` table. `duration_min` is optional, mirroring the
source's `svc.get("duration_min", DEFAULT)` access. -/
structure ServiceRow where
  id : String
  tenant_id : String
  name : String
  is_active : Bool
  duration_min : Option Nat
  price : Option Nat
  deriving DecidableEq, Repr

/-- Row of the `appointments` table. `start_at`/`end_at` are instants in
minutes since the epoch (the source stores ISO datetimes in UTC). -/
structure ApptRow where
  id : String
  tenant_id : String
  client_id : String
  staff_id : String
  service_id : String
  status : Status
  start_at : Nat
  end_at : Nat
  notes : String
  deriving DecidableEq, Repr

/-! ### String helpers (src/utils.py)

`leadsWith n h` decides whether `n` is an initial segment of `h`, and
`containsSub n h` whether `n` occurs contiguously inside `h`; together they
model Python's substring operators (`in`, and SQL `ilike '%pat%'` after
lower-casing both sides). -/

/-- Initial-segment test on character lists. -/
def leadsWith : List Char → List Char → Bool
  | [], _ => true
  | _ :: _, [] => false
  | c :: cs, d :: ds => c == d && leadsWith cs ds

/-- Contiguous-substring test on character lists. -/
def containsSub (needle : List Char) : List Char → Bool
  | [] => needle.isEmpty
  | c :: cs => leadsWith needle (c :: cs) || containsSub needle cs

/-- Substring test on strings, modelling Python's `needle in hay`. -/
def containsStr (hay needle : String) : Bool :=
  containsSub needle.data hay.data

/-- Lower-cased character list of a string. -/
def lowerList (s : String) : List Char := s.data.map Char.toLower

/-- Case-insensitive substring match modelling the
`.ilike("name", f"%{pat}%")` filter in `resolve_service`/`resolve_staff`. -/
def ilikeMatch (name pat : String) : Bool :=
  containsSub (lowerList pat) (lowerList name)

/-- Hexadecimal-digit test matching the character class `[0-9a-f]` with
`re.IGNORECASE`. -/
def isHexDigit (c : Char) : Bool :=
  ("0123456789abcdefABCDEF".data).contains c

/-- Embedding of `is_uuid` (src/utils.py): the anchored regex
`^[0-9a-f]{8}-[0-9a-f]{4}-[0-9a-f]{4}-[0-9a-f]{4}-[0-9a-f]{12}$`,
case-insensitive: length 36, dashes exactly at positions 8, 13, 18, 23,
hex digits everywhere else. -/
def is_uuid (value : String) : Bool :=
  let cs := value.data
  cs.length == 36 &&
    (List.range 36).all (fun i =>
      if i == 8 || i == 13 || i == 18 || i == 23 then cs.getD i ' ' == '-'
      else isHexDigit (cs.getD i ' '))

/-- Embedding of `resolve_service` (src/utils.py lines 93-109): a
UUID-shaped argument is looked up by `id` alone; otherwise the tenant's
active services are matched by case-insensitive substring, first row wins
(`resp.data[0]`). -/
def resolve_service (services : List ServiceRow) (tenant_id service_id_or_name : String) :
    Option ServiceRow :=
  if is_uuid service_id_or_name then
    (services.filter (fun r => r.id == service_id_or_name)).head?
  else
    (services.filter (fun r =>
      r.tenant_id == tenant_id && r.is_active && ilikeMatch r.name service_id_or_name)).head?

/-- Embedding of `resolve_staff` (src/utils.py lines 112-128), structurally
identical to `resolve_service` but over the `staff` table. -/
def resolve_staff (staffTable : List StaffRow) (tenant_id staff_id_or_name : String) :
    Option StaffRow :=
  if is_uuid staff_id_or_name then
    (staffTable.filter (fun r => r.id == staff_id_or_name)).head?
  else
    (staffTable.filter (fun r =>
      r.tenant_id == tenant_id && r.is_active && ilikeMatch r.name staff_id_or_name)).head?

/-! ### Availability engine (src/tools/availability_tools.py) -/

/-- Slot granularity constant `DEFAULT_SLOT_MINUTES` from
availability_tools.py. -/
def DEFAULT_SLOT_MINUTES : Nat := 30

/-- One availability slot as appended to `all_available_slots`; `time` and
`end_time` are minutes of the day (the source formats them as `"%H:%M"`,
which sorts identically to the numeric value). -/
structure Slot where
  time : Nat
  end_time : Nat
  staff_id : String
  staff_name : String
  deriving DecidableEq, Repr

/-- Datastore snapshot plus per-query failure oracles for
`check_availability`. A `True` oracle means the corresponding supabase
query raises and the surrounding `except` branch runs. -/
structure AvailEnv where
  closures : List ClosureRow
  closuresFail : Bool
  staff : List StaffRow
  staffFail : Bool
  working_hours : List WhRow
  whFail : String → Bool
  appointments : List ApptRow
  apptFail : String → Bool
  services : List ServiceRow
  servicesFail : Bool

/-- Fuel-indexed body of the slot-generation `while` loop; the fuel only
bounds the iteration count so the recursion is structural, and
`genSlots_unfold` below recovers the exact loop-shaped recurrence. -/
def genSlotsAux (end_boundary service_duration : Nat) (isToday : Bool) (nowTime : Nat)
    (booked : List (Nat × Nat)) (sid sname : String) : Nat → Nat → List Slot
  | 0, _ => []
  | fuel + 1, current =>
    if current + service_duration ≤ end_boundary then
      if isToday && decide (current ≤ nowTime) then
        genSlotsAux end_boundary service_duration isToday nowTime booked sid sname fuel
          (current + DEFAULT_SLOT_MINUTES)
      else if booked.all (fun b =>
          !(decide (current < b.2) && decide (current + service_duration > b.1))) then
        ⟨current, current + service_duration, sid, sname⟩ ::
          genSlotsAux end_boundary service_duration isToday nowTime booked sid sname fuel
            (current + DEFAULT_SLOT_MINUTES)
      else
        genSlotsAux end_boundary service_duration isToday nowTime booked sid sname fuel
          (current + DEFAULT_SLOT_MINUTES)
    else []

/-- Embedding of the slot-generation `while` loop
(availability_tools.py lines 154-183): step `DEFAULT_SLOT_MINUTES` from the
window start while `current + service_duration <= end_boundary`; when the
requested date is today, skip candidates whose start is at or before the
current local time; reject candidates that overlap a booked interval by the
half-open rule `slot_start < b_end and slot_end > b_start`. -/
def genSlots (end_boundary service_duration : Nat) (isToday : Bool) (nowTime : Nat)
    (booked : List (Nat × Nat)) (sid sname : String) (current : Nat) : List Slot :=
  genSlotsAux end_boundary service_duration isToday nowTime booked sid sname
    (end_boundary + 1 - current) current

/-- Stable insertion used to model Python's stable `list.sort(key=...)`:
an element moves past exactly the entries whose key is strictly smaller,
so entries with equal keys keep their first-seen order. -/
def insertByTime (a : Slot) : List Slot → List Slot
  | [] => [a]
  | b :: bs => if b.time < a.time then b :: insertByTime a bs else a :: b :: bs

/-- Stable sort by slot start time, modelling
`all_available_slots.sort(key=lambda s: s["time"])` (the zero-padded
`"%H:%M"` string key orders exactly like the numeric minute value). -/
def sortByTime : List Slot → List Slot
  | [] => []
  | a :: rest => insertByTime a (sortByTime rest)

/-- Closed form of the candidate start times the loop in `genSlots` visits:
the arithmetic progression from `startT` with step `DEFAULT_SLOT_MINUTES`,
kept while `candidate + service_duration ≤ end_boundary`. -/
def candidates (startT end_boundary service_duration : Nat) : List Nat :=
  if startT + service_duration ≤ end_boundary then
    (List.range ((end_boundary - service_duration - startT) / DEFAULT_SLOT_MINUTES + 1)).map
      (fun k => startT + DEFAULT_SLOT_MINUTES * k)
  else []

/-- Per-staff slot computation: the body of the `for staff_member in
staff_list.data` loop (availability_tools.py lines 98-183). A staff member
with a closure on the date is skipped; a failing `working_hours` query hits
`continue`; a failing `appointments` query is replaced by an empty result
set (`appts_response = type("R", (), {"data": []})()`), after which slot
generation proceeds as if nothing were booked. -/
def staffSlots (env : AvailEnv) (target_date weekday today nowLocal service_duration : Nat)
    (closed_staff_ids : List String) (sid sname : String) : List Slot :=
  if closed_staff_ids.contains sid then []
  else if env.whFail sid then []
  else
    let whs := env.working_hours.filter (fun w => w.staff_id == sid && w.weekday == weekday)
    if whs.isEmpty then []
    else
      let day_start := target_date * 1440
      let day_end := (target_date + 1) * 1440
      let booked : List (Nat × Nat) :=
        if env.apptFail sid then []
        else
          (env.appointments.filter (fun a =>
              a.staff_id == sid &&
              (a.status == Status.pending || a.status == Status.confirmed ||
                a.status == Status.in_service) &&
              decide (day_start ≤ a.start_at) && decide (a.start_at < day_end))).map
            (fun a => (a.start_at % 1440, a.end_at % 1440))
      whs.flatMap (fun wh =>
        genSlots wh.end_time service_duration (decide (target_date = today)) nowLocal booked
          sid sname wh.start_time)

/-- Result shape of `check_availability`: a `{"error": msg}` dict, an
unavailable result with a closure reason, the "Nessun operatore
disponibile" result, or the slot list (whose emptiness drives the
`available` flag). -/
inductive AvailResult where
  | error (msg : String)
  | closed (reason : String)
  | noStaff
  | ok (slots : List Slot)
  deriving DecidableEq, Repr

/-- Staff enumeration and slot merge of `check_availability`
(availability_tools.py lines 79-199), after the closure handling, as a
helper so the closure-query outcomes can share it. The staff query and the
`resolve_staff` call sit inside one `try`, so one failure oracle covers
both branches. -/
def availCore (env : AvailEnv) (tenant_id : String)
    (target_date weekday today nowLocal service_duration : Nat)
    (closed_staff_ids : List String) (staff_arg : Option String) : AvailResult :=
  let staffQ : Option (List (String × String)) :=
    if env.staffFail then none
    else
      some (match staff_arg with
        | some s =>
          match resolve_staff env.staff tenant_id s with
          | some st => [(st.id, st.name)]
          | none => []
        | none =>
          (env.staff.filter (fun st => st.tenant_id == tenant_id && st.is_active)).map
            (fun st => (st.id, st.name)))
  match staffQ with
  | none => .error "Impossibile verificare la disponibilità"
  | some staff_list =>
    if staff_list.isEmpty then .noStaff
    else
      let all_available_slots := staff_list.flatMap (fun p =>
        staffSlots env target_date weekday today nowLocal service_duration closed_staff_ids
          p.1 p.2)
      .ok (sortByTime all_available_slots)

/-- Embedding of `check_availability` (availability_tools.py lines 19-199).
`dateArg` is the outcome of `datetime.strptime(date, "%Y-%m-%d")` (`none`
models a `ValueError`); `nowUtc` is the current instant in UTC (so the
source's `datetime.now(timezone.utc).date()` is `nowUtc / 1440`); and
`nowLocal` is the server-local time of day used by the skip-past-slots
check (`datetime.now().time()`). -/
def check_availability (env : AvailEnv) (tenant_id : String) (dateArg : Option Nat)
    (service_arg : Option String) (staff_arg : Option String) (nowUtc nowLocal : Nat) :
    AvailResult :=
  match dateArg with
  | none => .error "Formato data non valido. Usa YYYY-MM-DD."
  | some target_date =>
    let today := nowUtc / 1440
    if target_date < today then .error "Non è possibile prenotare nel passato."
    else
      let service_duration :=
        match service_arg with
        | none => DEFAULT_SLOT_MINUTES
        | some s =>
          if env.servicesFail then DEFAULT_SLOT_MINUTES
          else
            match resolve_service env.services tenant_id s with
            | some svc => svc.duration_min.getD DEFAULT_SLOT_MINUTES
            | none => DEFAULT_SLOT_MINUTES
      let weekday := target_date % 7
      if env.closuresFail then
        availCore env tenant_id target_date weekday today nowLocal service_duration []
          staff_arg
      else
        let cls := env.closures.filter (fun c =>
          c.tenant_id == tenant_id && c.date == target_date)
        match cls.find? (fun c => c.staff_id.isNone) with
        | some c => .closed (c.reason.getD "Centro chiuso")
        | none =>
          availCore env tenant_id target_date weekday today nowLocal service_duration
            (cls.filterMap (fun c => c.staff_id)) staff_arg

/-- Today's calendar date in the tenant's local timezone, written from the
spec's words ("strictly before \"today\" in the tenant's local timezone");
the tenant timezone in this codebase is Europe/Rome, whose UTC offset in
minutes is `offsetMin` (60 in winter, 120 in summer). This definition is
deliberately spec-side, for comparison with the UTC-based guard the code
actually uses. -/
def tenantLocalToday (nowUtc offsetMin : Nat) : Nat := (nowUtc + offsetMin) / 1440

/-! ### Lemmas about the slot generator -/

/-- The fuel of `genSlotsAux` is irrelevant as long as it covers the
remaining iterations. -/
theorem genSlotsAux_fuel (endB dur : Nat) (tdy : Bool) (nowT : Nat)
    (booked : List (Nat × Nat)) (sid sname : String) :
    ∀ f1 f2 current, endB + 1 - current ≤ f1 → endB + 1 - current ≤ f2 →
      genSlotsAux endB dur tdy nowT booked sid sname f1 current =
        genSlotsAux endB dur tdy nowT booked sid sname f2 current := by
  intro f1
  induction f1 with
  | zero =>
    intro f2 current h1 _
    cases f2 with
    | zero => rfl
    | succ g =>
      simp only [genSlotsAux]
      rw [if_neg (by omega)]
  | succ f ih =>
    intro f2 current h1 h2
    cases f2 with
    | zero =>
      simp only [genSlotsAux]
      rw [if_neg (by omega)]
    | succ g =>
      simp only [genSlotsAux]
      by_cases hg : current + dur ≤ endB
      · rw [if_pos hg, if_pos hg]
        have hrec := ih g (current + DEFAULT_SLOT_MINUTES)
          (by simp only [DEFAULT_SLOT_MINUTES]; omega)
          (by simp only [DEFAULT_SLOT_MINUTES]; omega)
        rw [hrec]
      · rw [if_neg hg, if_neg hg]

/-- Loop-shaped recurrence for `genSlots`, matching the source `while`
loop literally. -/
theorem genSlots_unfold (endB dur : Nat) (tdy : Bool) (nowT : Nat)
    (booked : List (Nat × Nat)) (sid sname : String) (current : Nat) :
    genSlots endB dur tdy nowT booked sid sname current =
      if current + dur ≤ endB then
        if tdy && decide (current ≤ nowT) then
          genSlots endB dur tdy nowT booked sid sname (current + DEFAULT_SLOT_MINUTES)
        else if booked.all (fun b =>
            !(decide (current < b.2) && decide (current + dur > b.1))) then
          ⟨current, current + dur, sid, sname⟩ ::
            genSlots endB dur tdy nowT booked sid sname (current + DEFAULT_SLOT_MINUTES)
        else
          genSlots endB dur tdy nowT booked sid sname (current + DEFAULT_SLOT_MINUTES)
      else [] := by
  by_cases hg : current + dur ≤ endB
  · have hc : endB + 1 - current = (endB - current) + 1 := by omega
    rw [genSlots, hc]
    simp only [genSlotsAux]
    rw [if_pos hg, if_pos hg]
    have hrec := genSlotsAux_fuel endB dur tdy nowT booked sid sname
      (endB - current) (endB + 1 - (current + DEFAULT_SLOT_MINUTES))
      (current + DEFAULT_SLOT_MINUTES)
      (by simp only [DEFAULT_SLOT_MINUTES]; omega)
      (by omega)
    rw [genSlots, hrec]
  · rw [if_neg hg, genSlots]
    cases hf : endB + 1 - current with
    | zero => rfl
    | succ g =>
      simp only [genSlotsAux]
      rw [if_neg hg]

/-- Membership in a stable insertion. -/
theorem mem_insertByTime (a s : Slot) (l : List Slot) :
    s ∈ insertByTime a l ↔ s = a ∨ s ∈ l := by
  induction l with
  | nil => simp [insertByTime]
  | cons b bs ih =>
    simp only [insertByTime]
    split
    · simp only [List.mem_cons, ih]
      tauto
    · simp only [List.mem_cons]

/-- Sorting by time does not change the slots present. -/
theorem mem_sortByTime (s : Slot) (l : List Slot) : s ∈ sortByTime l ↔ s ∈ l := by
  induction l with
  | nil => simp [sortByTime]
  | cons b bs ih =>
    simp only [sortByTime, mem_insertByTime, List.mem_cons, ih]

theorem candidates_step (startT endB dur : Nat) (h : startT + dur ≤ endB) :
    candidates startT endB dur = startT :: candidates (startT + DEFAULT_SLOT_MINUTES) endB dur := by
  simp only [candidates, DEFAULT_SLOT_MINUTES]
  rw [if_pos h]
  by_cases h2 : startT + 30 + dur ≤ endB
  · rw [if_pos h2]
    have hdiv : (endB - dur - startT) / 30 =
        (endB - dur - (startT + 30)) / 30 + 1 := by omega
    rw [hdiv, List.range_succ_eq_map]
    simp only [List.map_cons, Nat.mul_zero, Nat.add_zero, List.map_map]
    congr 1
    apply List.map_congr_left
    intro a _
    simp only [Function.comp_apply]
    omega
  · rw [if_neg h2]
    have hn : (endB - dur - startT) / 30 = 0 := by omega
    rw [hn]
    simp [List.range_succ]

theorem candidates_stop (startT endB dur : Nat) (h : ¬ startT + dur ≤ endB) :
    candidates startT endB dur = [] := by
  simp [candidates, h]

/-- On a non-today date the generated slots are exactly the candidate
progression filtered by the half-open overlap rule. -/
theorem genSlots_eq_filter (endB dur nowT : Nat) (booked : List (Nat × Nat))
    (sid sname : String) (startT : Nat) :
    genSlots endB dur false nowT booked sid sname startT =
      ((candidates startT endB dur).filter
          (fun c => booked.all (fun b => !(decide (c < b.2) && decide (c + dur > b.1))))).map
        (fun c => ⟨c, c + dur, sid, sname⟩) := by
  by_cases h : startT + dur ≤ endB
  · rw [genSlots_unfold, if_pos h, candidates_step _ _ _ h]
    simp only [Bool.false_and, if_neg Bool.false_ne_true, List.filter_cons]
    by_cases hfree : booked.all (fun b => !(decide (startT < b.2) && decide (startT + dur > b.1)))
    · rw [if_pos hfree, if_pos hfree, List.map_cons,
        genSlots_eq_filter endB dur nowT booked sid sname (startT + DEFAULT_SLOT_MINUTES)]
    · rw [if_neg hfree, if_neg hfree,
        genSlots_eq_filter endB dur nowT booked sid sname (startT + DEFAULT_SLOT_MINUTES)]
  · rw [genSlots_unfold, if_neg h, candidates_stop _ _ _ h]
    simp
termination_by endB + 1 - startT
decreasing_by all_goals (simp only [DEFAULT_SLOT_MINUTES]; omega)

/-- Every slot emitted by `genSlots` carries the staff id it was generated
for. -/
theorem genSlots_staff_id (endB dur : Nat) (tdy : Bool) (nowT : Nat)
    (booked : List (Nat × Nat)) (sid sname : String) (current : Nat) (s : Slot)
    (hs : s ∈ genSlots endB dur tdy nowT booked sid sname current) : s.staff_id = sid := by
  rw [genSlots_unfold] at hs
  split at hs
  · split at hs
    · exact genSlots_staff_id endB dur tdy nowT booked sid sname _ s hs
    · split at hs
      · rcases List.mem_cons.mp hs with h | h
        · rw [h]
        · exact genSlots_staff_id endB dur tdy nowT booked sid sname _ s h
      · exact genSlots_staff_id endB dur tdy nowT booked sid sname _ s hs
  · simp at hs
termination_by endB + 1 - current
decreasing_by all_goals (simp only [DEFAULT_SLOT_MINUTES]; omega)

/-- Every slot contributed by `staffSlots` carries that staff member's id,
and is only emitted when the working-hours query succeeded. -/
theorem staffSlots_mem (env : AvailEnv) (td wd ty nl dur : Nat)
    (closed : List String) (sid sname : String) (s : Slot)
    (hs : s ∈ staffSlots env td wd ty nl dur closed sid sname) :
    s.staff_id = sid ∧ env.whFail sid = false := by
  simp only [staffSlots] at hs
  split at hs
  · simp at hs
  · split at hs
    · simp at hs
    · refine ⟨?_, by simp_all⟩
      split at hs
      · simp at hs
      · obtain ⟨wh, _, hw⟩ := List.mem_flatMap.mp hs
        exact genSlots_staff_id _ _ _ _ _ _ _ _ _ hw

/-- Slot lists returned by `availCore` come from `staffSlots` calls. -/
theorem availCore_ok_mem (env : AvailEnv) (tenant_id : String)
    (td wd ty nl dur : Nat) (closed : List String) (staff_arg : Option String)
    (slots : List Slot)
    (h : availCore env tenant_id td wd ty nl dur closed staff_arg = .ok slots)
    (s : Slot) (hs : s ∈ slots) : env.whFail s.staff_id = false := by
  simp only [availCore] at h
  split at h
  · exact absurd h (by simp)
  · split at h
    · exact absurd h (by simp)
    · obtain rfl : _ = slots := congrArg (fun r => match r with
        | AvailResult.ok l => l | _ => []) h
      obtain ⟨p, _, hmem⟩ := List.mem_flatMap.mp ((mem_sortByTime s _).mp hs)
      obtain ⟨hid, hwf⟩ := staffSlots_mem env td wd ty nl dur closed p.1 p.2 s hmem
      rwa [hid]

/-- `availCore` never returns the past-date validation error. -/
theorem availCore_ne_past (env : AvailEnv) (tenant_id : String)
    (td wd ty nl dur : Nat) (closed : List String) (staff_arg : Option String) :
    availCore env tenant_id td wd ty nl dur closed staff_arg ≠
      .error "Non è possibile prenotare nel passato." := by
  simp only [availCore]
  split
  · decide
  · split <;> simp

/-! ### Concrete environments for the worked scenarios -/

/-- Environment for the worked example of claim C1: one staff member of
tenant "t1" working 09:00-13:00 (540-780) on weekday 1, with one confirmed
appointment 10:00-10:30 on day 1 (instants 2040-2070). -/
def envC1 : AvailEnv where
  closures := []
  closuresFail := false
  staff := [⟨"s1", "Anna", "t1", true⟩]
  staffFail := false
  working_hours := [⟨"s1", 1, 540, 780⟩]
  whFail := fun _ => false
  appointments := [⟨"a1", "t1", "c1", "s1", "srv1", Status.confirmed, 1440 + 600, 1440 + 630, ""⟩]
  apptFail := fun _ => false
  services := []
  servicesFail := false

/-- C1: slot computation is boundary-inclusive and overlap-excluding: the
loop keeps exactly the candidates stepping by the granularity from the
window start with `candidate + duration ≤ window_end` (an end exactly at
the window end is kept) and without half-open overlap against any fetched
booking; concretely, for a 09:00-13:00 window with a 10:00-10:30 booking
and 30-minute duration and granularity, the slot starts are exactly 09:00,
09:30, 10:30, 11:00, 11:30, 12:00, 12:30. -/
theorem check_availability_slot_rule :
    (∀ (endB dur nowT : Nat) (booked : List (Nat × Nat)) (sid sname : String) (startT : Nat),
      genSlots endB dur false nowT booked sid sname startT =
        ((candidates startT endB dur).filter
            (fun c => booked.all (fun b => !(decide (c < b.2) && decide (c + dur > b.1))))).map
          (fun c => ⟨c, c + dur, sid, sname⟩))
    ∧ check_availability envC1 "t1" (some 1) none none 0 0 =
        .ok [⟨540, 570, "s1", "Anna"⟩, ⟨570, 600, "s1", "Anna"⟩, ⟨630, 660, "s1", "Anna"⟩,
          ⟨660, 690, "s1", "Anna"⟩, ⟨690, 720, "s1", "Anna"⟩, ⟨720, 750, "s1", "Anna"⟩,
          ⟨750, 780, "s1", "Anna"⟩] :=
  ⟨genSlots_eq_filter, by decide⟩

/-- C9: a UUID-shaped argument makes `resolve_service`/`resolve_staff` look
the row up by id alone (no tenant_id, no is_active filter), while a
name-shaped argument is matched only against the tenant's active rows. -/
theorem resolve_uuid_by_id_only (s : String) :
    (is_uuid s = true →
      (∀ (services : List ServiceRow) (tid : String),
        resolve_service services tid s = (services.filter (fun r => r.id == s)).head?) ∧
      (∀ (staffTable : List StaffRow) (tid : String),
        resolve_staff staffTable tid s = (staffTable.filter (fun r => r.id == s)).head?))
    ∧ (is_uuid s = false →
      (∀ (services : List ServiceRow) (tid : String),
        resolve_service services tid s = (services.filter (fun r =>
          r.tenant_id == tid && r.is_active && ilikeMatch r.name s)).head?) ∧
      (∀ (staffTable : List StaffRow) (tid : String),
        resolve_staff staffTable tid s = (staffTable.filter (fun r =>
          r.tenant_id == tid && r.is_active && ilikeMatch r.name s)).head?)) := by
  constructor <;> intro h <;> constructor <;> intro tbl tid <;>
    simp [resolve_service, resolve_staff, h]

/-- Witness for C9: a service row that belongs to a different tenant and is
inactive still resolves when addressed by its UUID. -/
theorem resolve_uuid_by_id_only_witness :
    resolve_service
        [⟨"11111111-2222-3333-4444-555555555555", "Taglio", "t2", false, some 45, none⟩]
        "t1" "11111111-2222-3333-4444-555555555555" =
      some ⟨"11111111-2222-3333-4444-555555555555", "Taglio", "t2", false, some 45, none⟩ := by
  rw [((resolve_uuid_by_id_only "11111111-2222-3333-4444-555555555555").1 (by decide)).1]
  decide

/-- C5 amended: the past-date guard of `check_availability` compares the
requested date against "today" computed in UTC
(`datetime.now(timezone.utc).date()`), not in the tenant's local timezone:
dates strictly before the UTC date fail with the past-date validation
error (and no slots), and dates from the UTC date onward are never
rejected by this check. -/
theorem check_availability_past_guard_utc (env : AvailEnv) (tenant_id : String)
    (d : Nat) (service_arg staff_arg : Option String) (nowUtc nowLocal : Nat) :
    (d < nowUtc / 1440 →
      check_availability env tenant_id (some d) service_arg staff_arg nowUtc nowLocal =
        .error "Non è possibile prenotare nel passato.")
    ∧ (nowUtc / 1440 ≤ d →
      check_availability env tenant_id (some d) service_arg staff_arg nowUtc nowLocal ≠
        .error "Non è possibile prenotare nel passato.") := by
  constructor
  · intro h
    simp only [check_availability]
    rw [if_pos h]
  · intro h
    simp only [check_availability]
    rw [if_neg (by omega)]
    split
    · apply availCore_ne_past
    · split
      · simp
      · apply availCore_ne_past

/-- Witness for the amended C5 theorem: day 0 is rejected and day 3 is
accepted when the UTC instant lies on day 1. -/
theorem check_availability_past_guard_utc_witness :
    check_availability envC1 "t1" (some 0) none none 2000 0 =
        .error "Non è possibile prenotare nel passato." ∧
      check_availability envC1 "t1" (some 3) none none 2000 0 ≠
        .error "Non è possibile prenotare nel passato." :=
  ⟨(check_availability_past_guard_utc envC1 "t1" 0 none none 2000 0).1 (by decide),
   (check_availability_past_guard_utc envC1 "t1" 3 none none 2000 0).2 (by decide)⟩

/-- Environment for the C5 counterexample: one staff member of tenant "t1"
working 09:00-10:00 on weekday 0. -/
def envC5 : AvailEnv where
  closures := []
  closuresFail := false
  staff := [⟨"s1", "Anna", "t1", true⟩]
  staffFail := false
  working_hours := [⟨"s1", 0, 540, 600⟩]
  whFail := fun _ => false
  appointments := []
  apptFail := fun _ => false
  services := []
  servicesFail := false

/-- C5 counterexample: at 23:30 UTC on day 0 (nowUtc = 1410) the
tenant-local date (Europe/Rome, UTC+60 minutes) is already day 1, so the
requested day 0 is strictly before "today" in the tenant's local timezone;
the claim then requires a validation error and no slots, yet
`check_availability` accepts the date and returns slots. -/
theorem check_availability_past_guard_counterexample :
    0 < tenantLocalToday 1410 60 ∧
      check_availability envC5 "t1" (some 0) none none 1410 0 =
        .ok [⟨540, 570, "s1", "Anna"⟩, ⟨570, 600, "s1", "Anna"⟩] := by decide

/-- C6 amended: a failing working-hours query makes the staff member
contribute no slots while the computation continues for the remaining
staff (every returned slot belongs to a staff member whose working-hours
query succeeded), but a failing appointments query is swallowed as an
empty booking list, so that staff member still contributes every in-window
candidate as if nothing were booked. -/
theorem check_availability_staff_data_errors (env : AvailEnv) (tenant_id : String)
    (dateArg : Option Nat) (service_arg staff_arg : Option String) (nowUtc nowLocal : Nat) :
    (∀ slots, check_availability env tenant_id dateArg service_arg staff_arg nowUtc nowLocal =
        .ok slots → ∀ s ∈ slots, env.whFail s.staff_id = false)
    ∧ (∀ td wd ty nl dur closed sid sname, env.whFail sid = true →
        staffSlots env td wd ty nl dur closed sid sname = [])
    ∧ (∀ td wd ty nl dur closed sid sname, env.apptFail sid = true →
        staffSlots env td wd ty nl dur closed sid sname =
          staffSlots { env with appointments := [], apptFail := fun _ => false }
            td wd ty nl dur closed sid sname) := by
  refine ⟨?_, ?_, ?_⟩
  · intro slots h s hs
    cases dateArg with
    | none => simp [check_availability] at h
    | some td =>
      simp only [check_availability] at h
      split at h
      · exact absurd h (by simp)
      · split at h
        · exact availCore_ok_mem _ _ _ _ _ _ _ _ _ _ h s hs
        · split at h
          · exact absurd h (by simp)
          · exact availCore_ok_mem _ _ _ _ _ _ _ _ _ _ h s hs
  · intro td wd ty nl dur closed sid sname hwf
    simp [staffSlots, hwf]
  · intro td wd ty nl dur closed sid sname haf
    simp [staffSlots, haf]

/-- Environment for the C6 witness: staff "s2" has a failing working-hours
query, staff "s1" does not. -/
def envC6w : AvailEnv where
  closures := []
  closuresFail := false
  staff := [⟨"s1", "Anna", "t1", true⟩, ⟨"s2", "Bea", "t1", true⟩]
  staffFail := false
  working_hours := [⟨"s1", 1, 540, 600⟩, ⟨"s2", 1, 540, 600⟩]
  whFail := fun sid => sid == "s2"
  appointments := []
  apptFail := fun _ => false
  services := []
  servicesFail := false

/-- Witness for the amended C6 theorem: with staff "s2" failing its
working-hours query, every returned slot belongs to "s1", and "s2"
contributes an empty slot list. -/
theorem check_availability_staff_data_errors_witness :
    envC6w.whFail "s1" = false ∧
      staffSlots envC6w 1 1 0 0 30 [] "s2" "Bea" = [] :=
  ⟨(check_availability_staff_data_errors envC6w "t1" (some 1) none none 0 0).1
      [⟨540, 570, "s1", "Anna"⟩, ⟨570, 600, "s1", "Anna"⟩] (by decide)
      ⟨540, 570, "s1", "Anna"⟩ (by decide),
   (check_availability_staff_data_errors envC6w "t1" (some 1) none none 0 0).2.1
      1 1 0 0 30 [] "s2" "Bea" (by decide)⟩

/-- Environment for the C6 counterexample: the appointments query fails for
every staff member, and staff "s1"'s whole 09:00-10:00 window on day 1 is
actually booked by a confirmed appointment. -/
def envC6 : AvailEnv where
  closures := []
  closuresFail := false
  staff := [⟨"s1", "Anna", "t1", true⟩]
  staffFail := false
  working_hours := [⟨"s1", 1, 540, 600⟩]
  whFail := fun _ => false
  appointments := [⟨"a1", "t1", "c1", "s1", "srv1", Status.confirmed, 1440 + 540, 1440 + 600, ""⟩]
  apptFail := fun _ => true
  services := []
  servicesFail := false

/-- C6 counterexample: the datastore read for staff "s1"'s appointments
fails, yet that staff member still contributes slots (the whole window,
ignoring the existing booking), contradicting "that staff member
contributes no slots to the result". -/
theorem check_availability_apptfail_counterexample :
    envC6.apptFail "s1" = true ∧
      check_availability envC6 "t1" (some 1) none none 0 0 =
        .ok [⟨540, 570, "s1", "Anna"⟩, ⟨570, 600, "s1", "Anna"⟩] := by decide

/-! ### Appointment tools (src/tools/appointment_tools.py)

The `{"error": msg}` / success-dict results are reduced to a two-case
discriminant carrying the error message or the appointment id (the other
success fields are presentational). Messages interpolating a Python
exception keep their literal prefix. Timestamps appended to `notes` are
dropped; the marker text relevant elsewhere is kept. -/

/-- Row of the `audit_logs` table (fields used by the embedded inserts). -/
structure AuditRow where
  tenant_id : String
  action : String
  target : String
  deriving DecidableEq, Repr

/-- Datastore snapshot for the appointment tools. -/
structure ApptDb where
  appointments : List ApptRow
  services : List ServiceRow
  staff : List StaffRow
  audit_logs : List AuditRow
  deriving DecidableEq, Repr

/-- Result discriminant of the booking tools. -/
inductive ToolResult where
  | error (msg : String)
  | success (appointment_id : String)
  deriving DecidableEq, Repr

/-- The status filter `in_("status", ["pending", "confirmed",
"in_service"])` used by every overlap query. -/
def statusActive (s : Status) : Bool :=
  s == Status.pending || s == Status.confirmed || s == Status.in_service

/-- Failure oracles and ambient data for one call to the appointment
tools: `rpcAvailable = false` models the atomic RPC raising (structurally
unavailable), sending the source to its legacy fallback; each other flag
makes the corresponding supabase call raise; `newApptId` is the id the
datastore assigns to an inserted row; `now` is the current instant. -/
structure ApptWorld where
  db : ApptDb
  rpcAvailable : Bool
  resolveServiceFail : Bool
  resolveStaffFail : Bool
  fetchFail : Bool
  overlapCheckFail : Bool
  insertFail : Bool
  updateFail : Bool
  auditFail : Bool
  newApptId : String
  now : Nat

/-- Audit-log insert wrapped in `try/except` (failures are logged and
swallowed, appointment_tools.py lines 263-271, 312-320, 381-389). -/
def auditInsert (auditFail : Bool) (db : ApptDb) (tenant_id action target : String) : ApptDb :=
  if auditFail then db
  else { db with audit_logs := db.audit_logs ++ [⟨tenant_id, action, target⟩] }

/-- Modelled from the spec: the stored procedure `book_appointment_atomic`
is not part of the repository source (it lives in the datastore); per spec
section 4.2 it atomically checks for any overlapping interval for the
target staff among non-terminal appointments and inserts the new
appointment with status confirmed, returning a conflict error if the
overlap check fails. -/
def book_appointment_atomic (db : ApptDb) (tenant_id client_id service_id staff_id : String)
    (start_at end_at : Nat) (newId : String) : ToolResult × ApptDb :=
  if db.appointments.any (fun a => a.staff_id == staff_id && statusActive a.status &&
      decide (a.start_at < end_at) && decide (a.end_at > start_at)) then
    (.error "Slot non disponibile.", db)
  else
    (.success newId,
      { db with appointments := db.appointments ++
          [⟨newId, tenant_id, client_id, staff_id, service_id, Status.confirmed,
            start_at, end_at, "Prenotato via WhatsApp Bot"⟩] })

/-- The insert step of the legacy fallback of `book_appointment`
(appointment_tools.py lines 121-147). -/
def bookInsert (w : ApptWorld) (tenant_id cid service_id staff_id : String)
    (start_at end_at : Nat) : ToolResult × ApptDb :=
  if w.insertFail then (.error "Errore durante la prenotazione. Riprova.", w.db)
  else
    (.success w.newApptId,
      { w.db with appointments := w.db.appointments ++
          [⟨w.newApptId, tenant_id, cid, staff_id, service_id, Status.confirmed, start_at,
            end_at, "Prenotato via WhatsApp Bot"⟩] })

/-- Embedding of `book_appointment` (appointment_tools.py lines 33-147).
`startOpt` is the outcome of parsing `f"{date} {time}"` (`none` models the
`ValueError`); the Rome-localized datetimes become plain instants. When
the RPC is available it returns a non-empty response, so the source's
fall-through on an empty RPC response coincides with the
rpc-unavailable branch. -/
def book_appointment (w : ApptWorld) (tenant_id : String) (client_id : Option String)
    (service_arg staff_arg : String) (startOpt : Option Nat) : ToolResult × ApptDb :=
  match client_id with
  | none => (.error "Cliente non identificato. Impossibile prenotare.", w.db)
  | some cid =>
    if w.resolveServiceFail then (.error "Errore recupero servizio: ", w.db)
    else
      match resolve_service w.db.services tenant_id service_arg with
      | none => (.error "Servizio non trovato.", w.db)
      | some service =>
        if w.resolveStaffFail then (.error "Errore recupero operatore: ", w.db)
        else
          match resolve_staff w.db.staff tenant_id staff_arg with
          | none => (.error "Operatore non trovato.", w.db)
          | some staff =>
            match startOpt with
            | none => (.error "Formato data/orario non valido.", w.db)
            | some start_at =>
              let duration := service.duration_min.getD 30
              let end_at := start_at + duration
              if w.rpcAvailable then
                book_appointment_atomic w.db tenant_id cid service.id staff.id start_at
                  end_at w.newApptId
              else
                let overlapQ : Option (List ApptRow) :=
                  if w.overlapCheckFail then none
                  else some (w.db.appointments.filter (fun a =>
                    a.staff_id == staff.id && statusActive a.status &&
                    decide (a.start_at < end_at) && decide (a.end_at > start_at)))
                match overlapQ with
                | some l =>
                  if !l.isEmpty then
                    (.error "Lo slot selezionato non è più disponibile. Per favore verifica la disponibilità aggiornata.", w.db)
                  else bookInsert w tenant_id cid service.id staff.id start_at end_at
                | none => bookInsert w tenant_id cid service.id staff.id start_at end_at

/-- Service duration taken from the joined service row in
`modify_appointment` (`appt.service.duration_min` with default 30). -/
def durationOf (db : ApptDb) (appt : ApptRow) : Nat :=
  match db.services.find? (fun sv => sv.id == appt.service_id) with
  | some sv => sv.duration_min.getD 30
  | none => 30

/-- Modelled from the spec: the stored procedure
`modify_appointment_atomic` is not part of the repository source; per spec
section 4.2, rescheduling checks ownership, checks the new interval
against the staff member's non-terminal appointments excluding the
appointment's own current row, and atomically updates
`start_at`/`end_at`, setting status confirmed. -/
def modify_appointment_atomic (db : ApptDb) (appointment_id client_id tenant_id : String)
    (new_start new_end : Nat) : ToolResult × ApptDb :=
  match (db.appointments.filter (fun a => a.id == appointment_id &&
      a.client_id == client_id && a.tenant_id == tenant_id)).head? with
  | none => (.error "Impossibile modificare.", db)
  | some appt =>
    if db.appointments.any (fun a => a.staff_id == appt.staff_id && statusActive a.status &&
        !(a.id == appointment_id) && decide (a.start_at < new_end) &&
        decide (a.end_at > new_start)) then
      (.error "Impossibile modificare.", db)
    else
      (.success appointment_id,
        { db with appointments := db.appointments.map (fun a =>
            if a.id == appointment_id then
              { a with start_at := new_start, end_at := new_end, status := Status.confirmed }
            else a) })

/-- The update step of the legacy fallback of `modify_appointment`
(appointment_tools.py lines 302-334), including the swallowed audit
insert. -/
def modifyUpdate (w : ApptWorld) (tenant_id appointment_id : String)
    (new_start new_end : Nat) : ToolResult × ApptDb :=
  if w.updateFail then (.error "Errore durante la modifica. Riprova.", w.db)
  else
    let db2 := { w.db with appointments := w.db.appointments.map (fun a =>
      if a.id == appointment_id then
        { a with
            start_at := new_start
            end_at := new_end
            status := Status.confirmed
            notes := a.notes ++ "\nSpostato via WhatsApp" }
      else a) }
    (.success appointment_id,
      auditInsert w.auditFail db2 tenant_id "appointment_rescheduled" appointment_id)

/-- Embedding of `modify_appointment` (appointment_tools.py lines
195-334). -/
def modify_appointment (w : ApptWorld) (tenant_id : String) (client_id : Option String)
    (appointment_id : String) (newStartOpt : Option Nat) : ToolResult × ApptDb :=
  match client_id with
  | none => (.error "Cliente non identificato.", w.db)
  | some cid =>
    if w.fetchFail then (.error "Errore verifica appuntamento: ", w.db)
    else
      match (w.db.appointments.filter (fun a => a.id == appointment_id &&
          a.client_id == cid && a.tenant_id == tenant_id)).head? with
      | none => (.error "Appuntamento non trovato o non appartiene a te.", w.db)
      | some appt =>
        if !(appt.status == Status.pending || appt.status == Status.confirmed) then
          (.error ("Impossibile modificare un appuntamento con stato \x27" ++
            appt.status.str ++ "\x27."), w.db)
        else
          match newStartOpt with
          | none => (.error "Formato data/orario non valido.", w.db)
          | some new_start =>
            let new_end := new_start + durationOf w.db appt
            if decide (new_start < w.now) then
              (.error "Non è possibile spostare nel passato.", w.db)
            else if w.rpcAvailable then
              match modify_appointment_atomic w.db appointment_id cid tenant_id new_start
                  new_end with
              | (.success aid, db2) =>
                (.success aid,
                  auditInsert w.auditFail db2 tenant_id "appointment_rescheduled" appointment_id)
              | (.error m, db2) => (.error m, db2)
            else
              let overlapQ : Option (List ApptRow) :=
                if w.overlapCheckFail then none
                else some (w.db.appointments.filter (fun a =>
                  a.staff_id == appt.staff_id && statusActive a.status &&
                  !(a.id == appointment_id) &&
                  decide (a.start_at < new_end) && decide (a.end_at > new_start)))
              match overlapQ with
              | some l =>
                if !l.isEmpty then (.error "Il nuovo orario non è disponibile.", w.db)
                else modifyUpdate w tenant_id appointment_id new_start new_end
              | none => modifyUpdate w tenant_id appointment_id new_start new_end

/-- Embedding of `cancel_appointment` (appointment_tools.py lines
337-406). -/
def cancel_appointment (w : ApptWorld) (tenant_id : String) (client_id : Option String)
    (appointment_id : String) : ToolResult × ApptDb :=
  match client_id with
  | none => (.error "Cliente non identificato.", w.db)
  | some cid =>
    if w.fetchFail then (.error "Errore verifica appuntamento: ", w.db)
    else
      match (w.db.appointments.filter (fun a => a.id == appointment_id &&
          a.client_id == cid && a.tenant_id == tenant_id)).head? with
      | none => (.error "Appuntamento non trovato o non appartiene a te.", w.db)
      | some appt =>
        if appt.status == Status.canceled || appt.status == Status.completed then
          (.error ("L\x27appuntamento è già " ++ appt.status.str ++ "."), w.db)
        else if w.updateFail then
          (.error "Errore durante la cancellazione. Riprova.", w.db)
        else
          let db2 := { w.db with appointments := w.db.appointments.map (fun a =>
            if a.id == appointment_id then
              { a with status := Status.canceled, notes := a.notes ++ "\nCancellato via WhatsApp" }
            else a) }
          (.success appointment_id,
            auditInsert w.auditFail db2 tenant_id "appointment_canceled" appointment_id)

/-! ### Claims about the appointment tools -/

/-- When the new interval overlaps no other non-terminal appointment of
the same staff member, the own-row-excluding overlap predicate used by
both reschedule paths rejects every row. -/
theorem overlap_pred_false (db : ApptDb) (appointment_id : String) (appt : ApptRow)
    (ns ne : Nat)
    (hov : ∀ a ∈ db.appointments, a.id ≠ appointment_id → a.staff_id = appt.staff_id →
        statusActive a.status = true → ¬ (a.start_at < ne ∧ a.end_at > ns)) :
    ∀ a ∈ db.appointments,
      (a.staff_id == appt.staff_id && statusActive a.status && !(a.id == appointment_id) &&
        decide (a.start_at < ne) && decide (a.end_at > ns)) = false := by
  intro a ha
  by_cases hid : a.id = appointment_id
  · simp [hid]
  · by_cases hstaff : a.staff_id = appt.staff_id
    · by_cases hact : statusActive a.status = true
      · have h := hov a ha hid hstaff hact
        by_cases h1 : a.start_at < ne
        · have h2 : ¬ a.end_at > ns := fun h2 => h ⟨h1, h2⟩
          simp [h1, h2]
        · simp [h1]
      · simp [hact]
    · simp [hstaff]

/-- C3: rescheduling excludes the appointment's own row from its conflict
check: for an appointment owned by the caller with status pending or
confirmed, when the new interval overlaps no other non-terminal
appointment of the same staff member (it may overlap the appointment's own
current interval), `modify_appointment` succeeds — on the atomic and on
the legacy path alike — and no conflict error is returned. -/
theorem modify_excludes_own_row (w : ApptWorld) (tenant_id cid appointment_id : String)
    (appt : ApptRow) (new_start : Nat)
    (hfetch : w.fetchFail = false)
    (hupd : w.updateFail = false)
    (hA : (w.db.appointments.filter (fun a => a.id == appointment_id &&
        a.client_id == cid && a.tenant_id == tenant_id)).head? = some appt)
    (hst : appt.status = Status.pending ∨ appt.status = Status.confirmed)
    (hpast : ¬ new_start < w.now)
    (hov : ∀ a ∈ w.db.appointments, a.id ≠ appointment_id → a.staff_id = appt.staff_id →
        statusActive a.status = true →
        ¬ (a.start_at < new_start + durationOf w.db appt ∧ a.end_at > new_start)) :
    (modify_appointment w tenant_id (some cid) appointment_id (some new_start)).1 =
      .success appointment_id := by
  have hpred := overlap_pred_false w.db appointment_id appt new_start
    (new_start + durationOf w.db appt) hov
  have hany : (w.db.appointments.any (fun a => a.staff_id == appt.staff_id &&
      statusActive a.status && !(a.id == appointment_id) &&
      decide (a.start_at < new_start + durationOf w.db appt) &&
      decide (a.end_at > new_start))) = false := by
    rw [List.any_eq_false]
    intro a ha
    simp [hpred a ha]
  have hfil : (w.db.appointments.filter (fun a => a.staff_id == appt.staff_id &&
      statusActive a.status && !(a.id == appointment_id) &&
      decide (a.start_at < new_start + durationOf w.db appt) &&
      decide (a.end_at > new_start))) = [] := by
    rw [List.filter_eq_nil_iff]
    intro a ha
    simp [hpred a ha]
  by_cases hrpc : w.rpcAvailable
  · rcases hst with h | h <;>
      simp [modify_appointment, hfetch, hA, h, hpast, hrpc,
        modify_appointment_atomic, hany, auditInsert]
  · by_cases hoc : w.overlapCheckFail <;> rcases hst with h | h <;>
      simp [modify_appointment, hfetch, hA, h, hpast, hrpc, hoc, hfil,
        modifyUpdate, hupd, auditInsert]

/-- World for the C3 witness: appointment "a1" (pending, 10:00-10:30 on
day 0) is owned by client "c1" of tenant "t1"; the atomic RPC is
unavailable, so the legacy path runs. -/
def wC3 : ApptWorld where
  db := { appointments := [⟨"a1", "t1", "c1", "s1", "srv1", Status.pending, 600, 630, ""⟩],
          services := [], staff := [], audit_logs := [] }
  rpcAvailable := false
  resolveServiceFail := false
  resolveStaffFail := false
  fetchFail := false
  overlapCheckFail := false
  insertFail := false
  updateFail := false
  auditFail := false
  newApptId := "n1"
  now := 0

/-- Witness for C3: moving "a1" to 10:10, a time overlapping only its own
current 10:00-10:30 interval, succeeds with no conflict error. -/
theorem modify_excludes_own_row_witness :
    (modify_appointment wC3 "t1" (some "c1") "a1" (some 610)).1 = .success "a1" :=
  modify_excludes_own_row wC3 "t1" "c1" "a1"
    ⟨"a1", "t1", "c1", "s1", "srv1", Status.pending, 600, 630, ""⟩ 610
    rfl rfl (by decide) (Or.inl rfl) (by decide) (by decide)

/-- C4: canceling an appointment whose status is already canceled or
completed returns the explicit already-in-that-state error, performs no
status update, appends no new audit entry, and leaves the datastore
unchanged. -/
theorem cancel_already_terminal (w : ApptWorld) (tenant_id cid appointment_id : String)
    (appt : ApptRow)
    (hfetch : w.fetchFail = false)
    (hA : (w.db.appointments.filter (fun a => a.id == appointment_id &&
        a.client_id == cid && a.tenant_id == tenant_id)).head? = some appt)
    (hst : appt.status = Status.canceled ∨ appt.status = Status.completed) :
    cancel_appointment w tenant_id (some cid) appointment_id =
      (.error ("L\x27appuntamento è già " ++ appt.status.str ++ "."), w.db) := by
  rcases hst with h | h <;> simp [cancel_appointment, hfetch, hA, h, Status.str]

/-- World for the C4 witness: appointment "a1" is already canceled. -/
def wC4 : ApptWorld where
  db := { appointments := [⟨"a1", "t1", "c1", "s1", "srv1", Status.canceled, 600, 630, ""⟩],
          services := [], staff := [], audit_logs := [] }
  rpcAvailable := false
  resolveServiceFail := false
  resolveStaffFail := false
  fetchFail := false
  overlapCheckFail := false
  insertFail := false
  updateFail := false
  auditFail := false
  newApptId := "n1"
  now := 0

/-- Witness for C4: canceling the already-canceled "a1" yields the
already-in-that-state error and an unchanged datastore. -/
theorem cancel_already_terminal_witness :
    cancel_appointment wC4 "t1" (some "c1") "a1" =
      (.error "L\x27appuntamento è già canceled.", wC4.db) := by
  rw [cancel_already_terminal wC4 "t1" "c1" "a1"
    ⟨"a1", "t1", "c1", "s1", "srv1", Status.canceled, 600, 630, ""⟩ rfl (by decide)
    (Or.inl rfl)]
  decide

/-- C10: in the legacy fallback of `book_appointment`, a raising overlap
query is swallowed (only a warning is logged) and the insert is still
attempted: the call returns success and appends a new confirmed
appointment even though no conflict check ran, and no conflict error is
returned on that path. -/
theorem book_overlap_error_swallowed (w : ApptWorld)
    (tenant_id cid service_arg staff_arg : String) (service : ServiceRow) (staff : StaffRow)
    (start_at : Nat)
    (hrpc : w.rpcAvailable = false)
    (hoc : w.overlapCheckFail = true)
    (hins : w.insertFail = false)
    (hsf : w.resolveServiceFail = false)
    (hstf : w.resolveStaffFail = false)
    (hsvc : resolve_service w.db.services tenant_id service_arg = some service)
    (hstaff : resolve_staff w.db.staff tenant_id staff_arg = some staff) :
    book_appointment w tenant_id (some cid) service_arg staff_arg (some start_at) =
      (.success w.newApptId,
        { w.db with appointments := w.db.appointments ++
            [⟨w.newApptId, tenant_id, cid, staff.id, service.id, Status.confirmed, start_at,
              start_at + service.duration_min.getD 30, "Prenotato via WhatsApp Bot"⟩] }) := by
  simp [book_appointment, hsf, hsvc, hstf, hstaff, hrpc, hoc, bookInsert, hins]

/-- World for the C10 witness: staff "s1" already has a confirmed
appointment covering 10:00-10:30, and the legacy overlap query raises. -/
def wC10 : ApptWorld where
  db := { appointments := [⟨"a0", "t1", "c9", "s1", "srv1", Status.confirmed, 600, 630, ""⟩],
          services := [⟨"srv1", "t1", "Taglio", true, some 30, some 20⟩],
          staff := [⟨"s1", "Anna", "t1", true⟩], audit_logs := [] }
  rpcAvailable := false
  resolveServiceFail := false
  resolveStaffFail := false
  fetchFail := false
  overlapCheckFail := true
  insertFail := false
  updateFail := false
  auditFail := false
  newApptId := "n1"
  now := 0

/-- Witness for C10: booking 10:00-10:30 while an identical confirmed
appointment already exists succeeds because the failed overlap check is
swallowed, creating a double booking. -/
theorem book_overlap_error_swallowed_witness :
    book_appointment wC10 "t1" (some "c1") "Taglio" "Anna" (some 600) =
      (.success "n1",
        { wC10.db with appointments := wC10.db.appointments ++
            [⟨"n1", "t1", "c1", "s1", "srv1", Status.confirmed, 600, 630,
              "Prenotato via WhatsApp Bot"⟩] }) := by
  rw [book_overlap_error_swallowed wC10 "t1" "c1" "Taglio" "Anna"
    ⟨"srv1", "t1", "Taglio", true, some 30, some 20⟩ ⟨"s1", "Anna", "t1", true⟩ 600
    rfl rfl rfl rfl rfl (by decide) (by decide)]
  decide

/-! ### Webhook dedup gate (src/webhook_handler.py) -/

/-- Cap `MAX_DEDUP_SIZE` of the in-memory dedup cache
(webhook_handler.py line 40). -/
def MAX_DEDUP_SIZE : Nat := 10000

/-- Embedding of `_add_to_dedup_cache` (webhook_handler.py lines 130-137).
The Python cache is a `set`; its contents are represented as a
duplicate-free list whose head is the most recently inserted element, and
the unspecified iteration order of `list(_processed_messages)` is an
explicit enumeration function `enum` (CPython sets iterate in a
hash-dependent order unrelated to insertion order; every theorem below
assumes only that `enum` permutes the contents). When the cap is
exceeded, the first `MAX_DEDUP_SIZE // 2` entries of that enumeration are
discarded in one pass. -/
def addToDedupCache {α : Type} [DecidableEq α] (enum : List α → List α)
    (cache : List α) (x : α) : List α :=
  let c := if x ∈ cache then cache else x :: cache
  if MAX_DEDUP_SIZE < c.length then
    let toRemove := (enum c).take (MAX_DEDUP_SIZE / 2)
    c.filter (fun y => decide (y ∉ toRemove))
  else c

/-- Removing a duplicate-free batch of present elements shortens a
duplicate-free list by exactly the batch size. -/
theorem filter_not_mem_length {α : Type} [DecidableEq α] (c r : List α)
    (hc : c.Nodup) (hr : r.Nodup) (hsub : ∀ y ∈ r, y ∈ c) :
    (c.filter (fun y => decide (y ∉ r))).length = c.length - r.length := by
  have hpart := (List.filter_append_perm (fun y => decide (y ∉ r)) c).length_eq
  rw [List.length_append] at hpart
  have hq : (c.filter (fun y => !decide (y ∉ r))).length = r.length := by
    have hqe : (c.filter (fun y => !decide (y ∉ r))) =
        c.filter (fun y => decide (y ∈ r)) := by
      apply List.filter_congr
      intro y _
      simp [decide_not]
    rw [hqe]
    have hnd : (c.filter (fun y => decide (y ∈ r))).Nodup := hc.filter _
    have hts : (c.filter (fun y => decide (y ∈ r))).toFinset = r.toFinset := by
      ext y
      simp only [List.mem_toFinset, List.mem_filter, decide_eq_true_eq]
      exact ⟨fun h => h.2, fun hy => ⟨hsub y hy, hy⟩⟩
    calc (c.filter (fun y => decide (y ∈ r))).length
        = (c.filter (fun y => decide (y ∈ r))).toFinset.card :=
          (List.toFinset_card_of_nodup hnd).symm
      _ = r.toFinset.card := by rw [hts]
      _ = r.length := List.toFinset_card_of_nodup hr
  omega

/-- C8 amended: the dedup cache stays duplicate-free and bounded by
`MAX_DEDUP_SIZE`, and when adding an id pushes it past the cap, exactly
`MAX_DEDUP_SIZE / 2` entries are evicted in one pass; the evicted entries
are the first half of the set's iteration order, which is not guaranteed
to be the oldest entries (so the retained ids are not necessarily the most
recently seen ones). Holds for every enumeration that permutes the
contents. -/
theorem addToDedupCache_bounded {α : Type} [DecidableEq α] (enum : List α → List α)
    (cache : List α) (x : α)
    (hperm : ∀ l, (enum l).Perm l)
    (hnodup : cache.Nodup)
    (hlen : cache.length ≤ MAX_DEDUP_SIZE) :
    (addToDedupCache enum cache x).length ≤ MAX_DEDUP_SIZE ∧
      (addToDedupCache enum cache x).Nodup ∧
      (cache.length = MAX_DEDUP_SIZE → x ∉ cache →
        (addToDedupCache enum cache x).length =
          MAX_DEDUP_SIZE + 1 - MAX_DEDUP_SIZE / 2) := by
  by_cases hx : x ∈ cache
  · have hc : addToDedupCache enum cache x = cache := by
      unfold addToDedupCache
      rw [if_pos hx, if_neg (by omega)]
    rw [hc]
    exact ⟨hlen, hnodup, fun _ hxm => absurd hx hxm⟩
  · have hcn : (x :: cache).Nodup := List.nodup_cons.mpr ⟨hx, hnodup⟩
    by_cases hcap : MAX_DEDUP_SIZE < (x :: cache).length
    · have hc : addToDedupCache enum cache x =
          (x :: cache).filter (fun y =>
            decide (y ∉ (enum (x :: cache)).take (MAX_DEDUP_SIZE / 2))) := by
        unfold addToDedupCache
        rw [if_neg hx, if_pos hcap]
      have hen : (enum (x :: cache)).Nodup := ((hperm (x :: cache)).nodup_iff).mpr hcn
      have hrn : ((enum (x :: cache)).take (MAX_DEDUP_SIZE / 2)).Nodup :=
        (List.take_sublist _ _).nodup hen
      have hrsub : ∀ y ∈ (enum (x :: cache)).take (MAX_DEDUP_SIZE / 2), y ∈ x :: cache :=
        fun y hy => (hperm (x :: cache)).mem_iff.mp ((List.take_sublist _ _).mem hy)
      have hrlen : ((enum (x :: cache)).take (MAX_DEDUP_SIZE / 2)).length =
          MAX_DEDUP_SIZE / 2 := by
        rw [List.length_take, (hperm (x :: cache)).length_eq]
        simp only [List.length_cons, MAX_DEDUP_SIZE] at *
        omega
      have hfl := filter_not_mem_length (x :: cache)
        ((enum (x :: cache)).take (MAX_DEDUP_SIZE / 2)) hcn hrn hrsub
      rw [hrlen] at hfl
      have hclen : (x :: cache).length = cache.length + 1 := List.length_cons x cache
      refine ⟨?_, ?_, ?_⟩
      · rw [hc, hfl]
        simp only [MAX_DEDUP_SIZE] at *
        omega
      · rw [hc]
        exact hcn.filter _
      · intro hfull _
        rw [hc, hfl, hclen, hfull]
    · have hc : addToDedupCache enum cache x = x :: cache := by
        unfold addToDedupCache
        rw [if_neg hx, if_neg hcap]
      rw [hc]
      refine ⟨by simp at hcap ⊢; omega, hcn, fun hfull _ => ?_⟩
      simp only [List.length_cons, hfull] at hcap
      omega

/-- Witness for the amended C8 theorem at a small concrete cache with the
identity enumeration. -/
theorem addToDedupCache_bounded_witness :
    (addToDedupCache (fun l => l) ["a"] "b").length ≤ MAX_DEDUP_SIZE ∧
      (addToDedupCache (fun l => l) ["a"] "b").Nodup ∧
      ((["a"] : List String).length = MAX_DEDUP_SIZE → "b" ∉ (["a"] : List String) →
        (addToDedupCache (fun l => l) ["a"] "b").length =
          MAX_DEDUP_SIZE + 1 - MAX_DEDUP_SIZE / 2) :=
  addToDedupCache_bounded (fun l => l) ["a"] "b" (fun l => List.Perm.refl l)
    (by decide) (by decide)

/-- C8 counterexample: with the identity enumeration - a legitimate set
iteration order - a full cache evicts the id being added right now, the
most recently seen one of all, while retaining thousands of older
entries; this refutes "the oldest roughly-half of the entries" are
evicted and "the most recently seen ids are the ones retained". -/
theorem addToDedupCache_evicts_newest :
    10000 ∉ addToDedupCache (fun l => l) (List.range 10000) 10000 ∧
      9999 ∈ addToDedupCache (fun l => l) (List.range 10000) 10000 := by
  have hnm : ¬ (10000 ∈ List.range 10000) := by simp
  have hc : addToDedupCache (fun l => l) (List.range 10000) 10000 =
      (10000 :: List.range 10000).filter
        (fun y => decide (y ∉ (10000 :: List.range 10000).take (MAX_DEDUP_SIZE / 2))) := by
    unfold addToDedupCache
    rw [if_neg hnm, if_pos (by simp [MAX_DEDUP_SIZE])]
  have htk : (10000 :: List.range 10000).take (MAX_DEDUP_SIZE / 2) =
      10000 :: List.range 4999 := by
    have h5 : MAX_DEDUP_SIZE / 2 = 4999 + 1 := by norm_num [MAX_DEDUP_SIZE]
    rw [h5, List.take_succ_cons, List.take_range]
    norm_num
  rw [hc, htk]
  constructor
  · intro hmem
    have hp := (List.mem_filter.mp hmem).2
    simp at hp
  · rw [List.mem_filter]
    constructor
    · simp
    · simp

/-! ### Webhook handler flow (src/webhook_handler.py lines 453-628) -/

/-- Events a webhook delivery emits, in execution order: datastore reads,
datastore writes (mutations), outbound calls to the messaging channel,
and insertions into the in-process dedup cache. -/
inductive Event where
  | dbRead (desc : String)
  | dbWrite (desc : String)
  | send (desc : String)
  | cacheAdd (id : String)
  deriving DecidableEq, Repr

/-- Side effects in the sense of the dedup contract: datastore mutations
and outbound sends. -/
def isSideEffect : Event → Bool
  | .dbWrite _ => true
  | .send _ => true
  | .dbRead _ => false
  | .cacheAdd _ => false

/-- Extracted message fields used by the handler (`_extract_message`
result; `text = none` models a payload that is dropped at line 472). -/
structure MsgIn where
  wa_message_id : String
  phone_number_id : String
  sender : String
  text : Option String
  isButtonReply : Bool
  deriving DecidableEq, Repr

/-- Oracles for one webhook delivery: signature verification outcome,
extraction outcome, tenant resolution, the persistent `whatsapp_messages`
log, whether the dedup DB query raises, whether `mark_as_read` reports an
auth error and what the tenant refresh then yields, conversation state,
the button-handler response, the assistant reply, and the set-iteration
order used for cache eviction. -/
structure WebhookWorld where
  sigOk : Bool
  msg : Option MsgIn
  tenant : Option String
  waLog : List String
  dedupDbFail : Bool
  markAsReadAuth : Bool
  tenantAfterRefresh : Option String
  conversationWaiting : Bool
  buttonResponse : Option String
  geminiReply : Option String
  enum : List String → List String

/-- Embedding of `_is_duplicate_message` (webhook_handler.py lines
139-167): memory tier first; on a database hit the id is copied into the
memory cache; a database failure is swallowed with a warning
(memory-only mode). Returns the verdict and the possibly updated cache. -/
def isDuplicateMessage (w : WebhookWorld) (cache : List String) (id : String)
    (tenant_id : Option String) : Bool × List String :=
  if id ∈ cache then (true, cache)
  else
    match tenant_id with
    | some _ =>
      if w.dedupDbFail then (false, cache)
      else if id ∈ w.waLog then (true, addToDedupCache w.enum cache id)
      else (false, cache)
    | none => (false, cache)

/-- Events of handler steps 2-7 (webhook_handler.py lines 521-610):
client and conversation get-or-create, inbound logging, the waiting-human
early return, the appointment-button branch (which itself updates the
datastore before replying), and the assistant reply with its outbound
log. -/
def afterAuthEvents (w : WebhookWorld) (m : MsgIn) : List Event :=
  [Event.dbWrite "get_or_create_client", Event.dbWrite "get_or_create_conversation"] ++
  (if w.conversationWaiting then [Event.dbWrite "log_message_inbound"]
   else
    [Event.dbWrite "log_message_inbound"] ++
    (match (if m.isButtonReply then w.buttonResponse else none) with
     | some _ => [Event.dbWrite "appointment_button", Event.send "button_reply_text",
         Event.dbWrite "log_message_outbound"]
     | none =>
       match w.geminiReply with
       | some _ => [Event.send "reply", Event.dbWrite "log_message_outbound"]
       | none => []))

/-- The `mark_as_read` call and the one-time token refresh on a 401
(webhook_handler.py lines 512-519), followed by the rest of the flow. -/
def afterGateEvents (w : WebhookWorld) (m : MsgIn) : List Event :=
  if w.markAsReadAuth then
    match w.tenantAfterRefresh with
    | none => [Event.send "mark_as_read", Event.dbRead "get_tenant_refresh"]
    | some _ => [Event.send "mark_as_read", Event.dbRead "get_tenant_refresh"] ++
        afterAuthEvents w m
  else [Event.send "mark_as_read"] ++ afterAuthEvents w m

/-- Embedding of the POST handler `handle_webhook` (webhook_handler.py
lines 453-628) as a cache transformer plus the ordered list of events it
emits: signature check, payload extraction, the fast in-memory dedup
check, tenant resolution, the two-tier dedup check, the immediate cache
registration, and the downstream steps. The handler always answers HTTP
200; the outer catch-all except branch cannot fire in this deterministic
model. -/
def handle_webhook (w : WebhookWorld) (cache : List String) : List String × List Event :=
  if !w.sigOk then (cache, [])
  else
    match w.msg with
    | none => (cache, [])
    | some m =>
      match m.text with
      | none => (cache, [])
      | some _ =>
        if m.wa_message_id ∈ cache then (cache, [])
        else
          match w.tenant with
          | none => (cache, [Event.dbRead "get_tenant"])
          | some _ =>
            let dup := isDuplicateMessage w cache m.wa_message_id w.tenant
            if dup.1 then
              (dup.2, [Event.dbRead "get_tenant", Event.dbRead "dedup_db_check"])
            else
              (addToDedupCache w.enum dup.2 m.wa_message_id,
                [Event.dbRead "get_tenant", Event.dbRead "dedup_db_check",
                  Event.cacheAdd m.wa_message_id] ++ afterGateEvents w m)

/-- C2: a delivery whose id is already in the in-process cache, or already
in the persistent message log while the persistent lookup is answerable,
causes no datastore mutation and no outbound send; and on every delivery
all side effects come only after the id has been registered in the
in-process cache (so a first-seen id is recorded before client creation,
booking or reply begin). -/
theorem handle_webhook_dedup (w : WebhookWorld) (cache : List String) (m : MsgIn)
    (hm : w.msg = some m) :
    ((m.wa_message_id ∈ cache ∨
        (w.dedupDbFail = false ∧ m.wa_message_id ∈ w.waLog)) →
      ∀ e ∈ (handle_webhook w cache).2, isSideEffect e = false)
    ∧ (∀ e ∈ (handle_webhook w cache).2.takeWhile
          (fun ev => decide (ev ≠ Event.cacheAdd m.wa_message_id)),
        isSideEffect e = false) := by
  by_cases hsig : w.sigOk = true
  case neg =>
    have hres : handle_webhook w cache = (cache, []) := by
      simp only [handle_webhook, hm]
      rw [if_pos (by simp [Bool.not_eq_true] at hsig ⊢; exact hsig)]
    rw [hres]
    simp
  case pos =>
  cases htxt : m.text with
  | none =>
    have hres : handle_webhook w cache = (cache, []) := by
      simp [handle_webhook, hm, hsig, htxt]
    rw [hres]
    simp
  | some t =>
  by_cases hmem : m.wa_message_id ∈ cache
  · have hres : handle_webhook w cache = (cache, []) := by
      simp [handle_webhook, hm, hsig, htxt, hmem]
    rw [hres]
    simp
  · cases ht : w.tenant with
    | none =>
      have hres : handle_webhook w cache = (cache, [Event.dbRead "get_tenant"]) := by
        simp [handle_webhook, hm, hsig, htxt, hmem, ht]
      rw [hres]
      constructor
      · intro _ e he
        rw [List.mem_singleton] at he
        simp [he, isSideEffect]
      · intro e he
        have hsub := List.takeWhile_sublist
          (p := fun ev => decide (ev ≠ Event.cacheAdd m.wa_message_id))
          (l := [Event.dbRead "get_tenant"])
        rw [List.mem_singleton.mp (hsub.mem he)]
        simp [isSideEffect]
    | some tid =>
      by_cases hdf : w.dedupDbFail = true
      · have hdup : isDuplicateMessage w cache m.wa_message_id (some tid) =
            (false, cache) := by
          simp [isDuplicateMessage, hmem, hdf]
        have hres : handle_webhook w cache =
            (addToDedupCache w.enum cache m.wa_message_id,
              [Event.dbRead "get_tenant", Event.dbRead "dedup_db_check",
                Event.cacheAdd m.wa_message_id] ++ afterGateEvents w m) := by
          simp [handle_webhook, hm, hsig, htxt, hmem, ht, hdup]
        rw [hres]
        constructor
        · intro h
          rcases h with h | ⟨h1, _⟩
          · exact absurd h hmem
          · rw [h1] at hdf
            exact absurd hdf (by simp)
        · intro e he
          simp only [List.cons_append, List.nil_append, List.takeWhile_cons, ne_eq,
            reduceCtorEq, not_false_eq_true, decide_True, if_true, not_true_eq_false,
            decide_False, Bool.false_eq_true, if_false, List.takeWhile_nil] at he
          rcases List.mem_cons.mp he with he | he
          · simp [he, isSideEffect]
          · rw [List.mem_singleton] at he
            simp [he, isSideEffect]
      · by_cases hlog : m.wa_message_id ∈ w.waLog
        · have hdup : isDuplicateMessage w cache m.wa_message_id (some tid) =
              (true, addToDedupCache w.enum cache m.wa_message_id) := by
            simp [isDuplicateMessage, hmem, hdf, hlog]
          have hres : handle_webhook w cache =
              (addToDedupCache w.enum cache m.wa_message_id,
                [Event.dbRead "get_tenant", Event.dbRead "dedup_db_check"]) := by
            simp [handle_webhook, hm, hsig, htxt, hmem, ht, hdup]
          rw [hres]
          constructor
          · intro _ e he
            rcases List.mem_cons.mp he with he | he
            · simp [he, isSideEffect]
            · rw [List.mem_singleton] at he
              simp [he, isSideEffect]
          · intro e he
            have hsub := List.takeWhile_sublist
              (p := fun ev => decide (ev ≠ Event.cacheAdd m.wa_message_id))
              (l := [Event.dbRead "get_tenant", Event.dbRead "dedup_db_check"])
            rcases List.mem_cons.mp (hsub.mem he) with he2 | he2
            · simp [he2, isSideEffect]
            · rw [List.mem_singleton] at he2
              simp [he2, isSideEffect]
        · have hdup : isDuplicateMessage w cache m.wa_message_id (some tid) =
              (false, cache) := by
            simp [isDuplicateMessage, hmem, hdf, hlog]
          have hres : handle_webhook w cache =
              (addToDedupCache w.enum cache m.wa_message_id,
                [Event.dbRead "get_tenant", Event.dbRead "dedup_db_check",
                  Event.cacheAdd m.wa_message_id] ++ afterGateEvents w m) := by
            simp [handle_webhook, hm, hsig, htxt, hmem, ht, hdup]
          rw [hres]
          constructor
          · intro h
            rcases h with h | ⟨_, h2⟩
            · exact absurd h hmem
            · exact absurd h2 hlog
          · intro e he
            simp only [List.cons_append, List.nil_append, List.takeWhile_cons, ne_eq,
              reduceCtorEq, not_false_eq_true, decide_True, if_true, not_true_eq_false,
              decide_False, Bool.false_eq_true, if_false, List.takeWhile_nil] at he
            rcases List.mem_cons.mp he with he | he
            · simp [he, isSideEffect]
            · rw [List.mem_singleton] at he
              simp [he, isSideEffect]

/-- Concrete message for the C2 witness. -/
def mC2 : MsgIn where
  wa_message_id := "wamid.abc"
  phone_number_id := "pn1"
  sender := "393331234567"
  text := some "Ciao"
  isButtonReply := false

/-- Concrete world for the C2 witness: "wamid.abc" is already in the
persistent message log and the lookup is answerable. -/
def wC2 : WebhookWorld where
  sigOk := true
  msg := some mC2
  tenant := some "t1"
  waLog := ["wamid.abc"]
  dedupDbFail := false
  markAsReadAuth := false
  tenantAfterRefresh := none
  conversationWaiting := false
  buttonResponse := none
  geminiReply := some "Ciao!"
  enum := fun l => l

/-- Witness for C2 at the concrete replayed delivery. -/
theorem handle_webhook_dedup_witness :
    isSideEffect (Event.dbRead "get_tenant") = false :=
  (handle_webhook_dedup wC2 [] mC2 rfl).1 (Or.inr ⟨rfl, by decide⟩)
    (Event.dbRead "get_tenant") (by decide)

/-! ### Notification scheduler (src/scheduler.py) -/

/-- Outcome of one outbound send attempt: `ok` is a successful delivery
(non-None response), `apiError` is the WhatsApp API answering with an
error status, which the helpers in whatsapp_api.py turn into a `None`
return value without raising, and `exn` is an exception escaping the
helper (network failure). -/
inductive SendOutcome where
  | ok
  | apiError
  | exn
  deriving DecidableEq, Repr

/-- Appointment row as selected by the scheduler queries, with the joined
client phone and tenant credentials collapsed to their presence. -/
structure SchedAppt where
  id : String
  status : Status
  start_at : Nat
  notes : String
  clientPhone : Option String
  tenantCreds : Option String
  deriving DecidableEq, Repr

/-- Oracles for one scheduler job run: per-appointment outcomes of the
three send helpers, whether the selection query raises, the current
instant, the Rome UTC offset in minutes, and the timestamp string written
into markers. -/
structure SchedWorld where
  queryFail : Bool
  buttonOutcome : String → SendOutcome
  templateOutcome : String → SendOutcome
  textOutcome : String → SendOutcome
  nowMinute : Nat
  romeOffset : Nat
  nowStr : String

/-- UTC instant of the Rome-local midnight that starts "tomorrow", as
computed by `_send_morning_confirmations` (scheduler.py lines 70-79);
DST changes inside the window are not modelled. -/
def tomorrowStartUtc (now off : Nat) : Nat := ((now + off) / 1440 + 1) * 1440 - off

/-- UTC instant of the Rome-local midnight that ends "tomorrow". -/
def tomorrowEndUtc (now off : Nat) : Nat := ((now + off) / 1440 + 2) * 1440 - off

/-- Per-appointment body of the morning-confirmation loop (scheduler.py
lines 104-182): returns whether the `sent` flag ends up true (so the
marker is appended) and how many messages were successfully delivered.
The interactive-button helper's return value is checked
(`if result is not None`), but the template fallback's is not: completing
without an exception sets `sent = True` even when the API answered with
an error and nothing was delivered. -/
def processMorningAppt (w : SchedWorld) (a : SchedAppt) : Bool × Nat :=
  if containsStr a.notes "morning_confirm" then (false, 0)
  else if a.clientPhone.isNone || a.tenantCreds.isNone then (false, 0)
  else
    match w.buttonOutcome a.id with
    | .ok => (true, 1)
    | _ =>
      match w.templateOutcome a.id with
      | .ok => (true, 1)
      | .apiError => (true, 0)
      | .exn => (false, 0)

/-- Per-appointment body of the 1h-reminder loop (scheduler.py lines
224-263): the text helper's return value is never checked, so only an
exception prevents the marker from being appended; an API error response
(None return, failed delivery) still appends it. -/
def processReminderAppt (w : SchedWorld) (a : SchedAppt) : Bool × Nat :=
  if containsStr a.notes "reminder_1h" then (false, 0)
  else if a.clientPhone.isNone || a.tenantCreds.isNone then (false, 0)
  else
    match w.textOutcome a.id with
    | .ok => (true, 1)
    | .apiError => (true, 0)
    | .exn => (false, 0)

/-- The notes update `sb.table("appointments").update({"notes":
new_notes}).eq("id", appt["id"])`: appends the timestamped marker to every
row with that id (the `.strip()` of the f-string only trims surrounding
whitespace and cannot remove the marker text, so it is omitted). -/
def applyMarker (marker ts : String) (db : List SchedAppt) (id : String) : List SchedAppt :=
  db.map (fun r => if r.id == id then
    { r with notes := r.notes ++ "\n[" ++ marker ++ ":" ++ ts ++ "]" } else r)

/-- Shared shape of both scheduler job loops (the two `for appt in
response.data` loops of scheduler.py): iterate over the selected snapshot
rows, attempt the sends, and append the marker for rows whose `sent` flag
is true; the second component accumulates the ids of successful
deliveries. -/
def notifLoop (process : SchedAppt → Bool × Nat) (marker ts : String) :
    List SchedAppt → List SchedAppt × List String → List SchedAppt × List String
  | [], acc => acc
  | a :: rest, (db, sent) =>
    notifLoop process marker ts rest
      ((if (process a).1 then applyMarker marker ts db a.id else db),
       sent ++ (if (process a).2 = 1 then [a.id] else []))

/-- Row selection of the morning job (scheduler.py lines 84-97):
`status == "pending"` with `start_at` inside tomorrow's Rome-local day. -/
def morningRows (w : SchedWorld) (db : List SchedAppt) : List SchedAppt :=
  db.filter (fun a => a.status == Status.pending &&
    decide (tomorrowStartUtc w.nowMinute w.romeOffset ≤ a.start_at) &&
    decide (a.start_at < tomorrowEndUtc w.nowMinute w.romeOffset))

/-- Embedding of `_send_morning_confirmations` (scheduler.py lines
61-182): returns the updated table and the ids of appointments that
received a successful delivery; a failing selection query aborts the run
with no sends. -/
def sendMorningConfirmations (w : SchedWorld) (db : List SchedAppt) :
    List SchedAppt × List String :=
  if w.queryFail then (db, [])
  else notifLoop (processMorningAppt w) "morning_confirm" w.nowStr (morningRows w db) (db, [])

/-- Row selection of the reminder job (scheduler.py lines 201-219):
`status == "confirmed"` with `start_at` in `[now + 60, now + 65)`. -/
def reminderRows (w : SchedWorld) (db : List SchedAppt) : List SchedAppt :=
  db.filter (fun a => a.status == Status.confirmed &&
    decide (w.nowMinute + 60 ≤ a.start_at) && decide (a.start_at < w.nowMinute + 65))

/-- Embedding of `_send_reminder_1h` (scheduler.py lines 198-263). -/
def sendReminder1h (w : SchedWorld) (db : List SchedAppt) :
    List SchedAppt × List String :=
  if w.queryFail then (db, [])
  else notifLoop (processReminderAppt w) "reminder_1h" w.nowStr (reminderRows w db) (db, [])

/-! ### Substring lemmas for the notes markers -/

theorem leadsWith_refl (n : List Char) : leadsWith n n = true := by
  induction n with
  | nil => rfl
  | cons c cs ih => simp [leadsWith, ih]

theorem leadsWith_append (n : List Char) :
    ∀ l t, leadsWith n l = true → leadsWith n (l ++ t) = true := by
  induction n with
  | nil => intro l t _; rfl
  | cons c cs ih =>
    intro l t h
    cases l with
    | nil => simp [leadsWith] at h
    | cons d ds =>
      simp only [leadsWith, Bool.and_eq_true] at h
      simp only [List.cons_append, leadsWith, Bool.and_eq_true]
      exact ⟨h.1, ih ds t h.2⟩

theorem containsSub_nil_needle (t : List Char) : containsSub [] t = true := by
  cases t with
  | nil => rfl
  | cons c cs => simp [containsSub, leadsWith]

theorem containsSub_self (n : List Char) : containsSub n n = true := by
  cases n with
  | nil => rfl
  | cons c cs => simp [containsSub, leadsWith_refl]

theorem containsSub_append_left (n : List Char) :
    ∀ l t, containsSub n l = true → containsSub n (l ++ t) = true := by
  intro l
  induction l with
  | nil =>
    intro t h
    simp only [containsSub, List.isEmpty_iff] at h
    subst h
    exact containsSub_nil_needle t
  | cons c cs ih =>
    intro t h
    simp only [containsSub, Bool.or_eq_true] at h
    simp only [List.cons_append, containsSub, Bool.or_eq_true]
    rcases h with h | h
    · exact Or.inl (by simpa using leadsWith_append n (c :: cs) t h)
    · exact Or.inr (ih t h)

theorem containsSub_append_right (n : List Char) :
    ∀ l t, containsSub n t = true → containsSub n (l ++ t) = true := by
  intro l
  induction l with
  | nil => intro t h; simpa using h
  | cons c cs ih =>
    intro t h
    simp only [List.cons_append, containsSub, Bool.or_eq_true]
    exact Or.inr (ih t h)

/-- A string keeps containing a needle when extended on the right. -/
theorem containsStr_append (s t needle : String)
    (h : containsStr s needle = true) : containsStr (s ++ t) needle = true := by
  unfold containsStr at *
  rw [String.data_append]
  exact containsSub_append_left needle.data s.data t.data h

/-- The appended marker text always contains the marker itself. -/
theorem containsStr_marker (notes marker ts : String) :
    containsStr (notes ++ "\n[" ++ marker ++ ":" ++ ts ++ "]") marker = true := by
  unfold containsStr
  simp only [String.data_append]
  apply containsSub_append_left
  apply containsSub_append_left
  apply containsSub_append_left
  apply containsSub_append_right
  exact containsSub_self marker.data

/-! ### Lemmas about the notification loops -/

theorem notifLoop_sends (process : SchedAppt → Bool × Nat) (marker ts : String) :
    ∀ (rows : List SchedAppt) (db : List SchedAppt) (sent : List String),
      (notifLoop process marker ts rows (db, sent)).2 =
        sent ++ rows.flatMap (fun a => if (process a).2 = 1 then [a.id] else []) := by
  intro rows
  induction rows with
  | nil => intro db sent; simp [notifLoop]
  | cons a rest ih =>
    intro db sent
    simp only [notifLoop, List.flatMap_cons]
    rw [ih]
    rw [List.append_assoc]

theorem notifLoop_db (process : SchedAppt → Bool × Nat) (marker ts : String) :
    ∀ (rows : List SchedAppt) (db : List SchedAppt) (sent : List String),
      (notifLoop process marker ts rows (db, sent)).1 =
        rows.foldl (fun d a => if (process a).1 then applyMarker marker ts d a.id else d) db := by
  intro rows
  induction rows with
  | nil => intro db sent; simp [notifLoop]
  | cons a rest ih =>
    intro db sent
    simp only [notifLoop, List.foldl_cons]
    rw [ih]

theorem applyMarker_map_id (marker ts : String) (d : List SchedAppt) (id : String) :
    (applyMarker marker ts d id).map (fun r => r.id) = d.map (fun r => r.id) := by
  unfold applyMarker
  rw [List.map_map]
  apply List.map_congr_left
  intro r _
  by_cases h : r.id == id <;> simp [Function.comp, h]

theorem foldDb_map_id (process : SchedAppt → Bool × Nat) (marker ts : String) :
    ∀ (rows : List SchedAppt) (db : List SchedAppt),
      ((rows.foldl (fun d a => if (process a).1 then applyMarker marker ts d a.id else d)
          db).map (fun r => r.id)) = db.map (fun r => r.id) := by
  intro rows
  induction rows with
  | nil => intro db; rfl
  | cons a rest ih =>
    intro db
    rw [List.foldl_cons, ih]
    by_cases h : (process a).1 <;> simp [h, applyMarker_map_id]

/-- Every row with the marked id carries the marker after `applyMarker`. -/
theorem applyMarker_marks (marker ts : String) (d : List SchedAppt) (id : String) :
    ∀ r ∈ applyMarker marker ts d id, r.id = id → containsStr r.notes marker = true := by
  intro r hr hid
  obtain ⟨r0, hr0, rfl⟩ := List.mem_map.mp hr
  by_cases h : r0.id == id
  · simp only [h, if_true]
    exact containsStr_marker r0.notes marker ts
  · simp only [h, if_false] at hid ⊢
    exact absurd hid (by simpa using h)

/-- `applyMarker` never removes an already-present marker. -/
theorem applyMarker_preserves (marker ts : String) (d : List SchedAppt) (id id2 : String)
    (h : ∀ r ∈ d, r.id = id2 → containsStr r.notes marker = true) :
    ∀ r ∈ applyMarker marker ts d id, r.id = id2 → containsStr r.notes marker = true := by
  intro r hr hid
  obtain ⟨r0, hr0, rfl⟩ := List.mem_map.mp hr
  by_cases hb : r0.id == id
  · simp only [hb, if_true]
    exact containsStr_marker r0.notes marker ts
  · simp only [hb, if_false] at hid ⊢
    exact h r0 hr0 hid

theorem foldDb_preserves_marker (process : SchedAppt → Bool × Nat) (marker ts : String) :
    ∀ (rows : List SchedAppt) (db : List SchedAppt) (id2 : String),
      (∀ r ∈ db, r.id = id2 → containsStr r.notes marker = true) →
      ∀ r ∈ rows.foldl (fun d a => if (process a).1 then applyMarker marker ts d a.id else d)
          db, r.id = id2 → containsStr r.notes marker = true := by
  intro rows
  induction rows with
  | nil => intro db id2 h; exact h
  | cons a rest ih =>
    intro db id2 h
    rw [List.foldl_cons]
    apply ih
    by_cases hp : (process a).1
    · rw [if_pos hp]
      exact applyMarker_preserves marker ts db a.id id2 h
    · rw [if_neg hp]
      exact h

/-- After a loop pass in which row `a` reported `sent = True`, every row
with `a`'s id carries the marker. -/
theorem foldDb_marks (process : SchedAppt → Bool × Nat) (marker ts : String) :
    ∀ (rows : List SchedAppt) (db : List SchedAppt) (a : SchedAppt),
      a ∈ rows → (process a).1 = true →
      ∀ r ∈ rows.foldl (fun d a => if (process a).1 then applyMarker marker ts d a.id else d)
          db, r.id = a.id → containsStr r.notes marker = true := by
  intro rows
  induction rows with
  | nil => intro db a ha; exact absurd ha (List.not_mem_nil a)
  | cons b rest ih =>
    intro db a ha hp
    rcases List.mem_cons.mp ha with rfl | ha
    · rw [List.foldl_cons, if_pos hp]
      exact foldDb_preserves_marker process marker ts rest (applyMarker marker ts db a.id)
        a.id (applyMarker_marks marker ts db a.id)
    · rw [List.foldl_cons]
      exact ih _ a ha hp

/-- Ids absent from the snapshot never appear among the delivered ids. -/
theorem flatMap_sends_count_zero (f : SchedAppt → List String)
    (hf : ∀ a, f a = [] ∨ f a = [a.id]) (id : String) :
    ∀ rows : List SchedAppt, id ∉ rows.map (fun r => r.id) →
      (rows.flatMap f).count id = 0 := by
  intro rows
  induction rows with
  | nil => intro _; rfl
  | cons a rest ih =>
    intro h
    simp only [List.map_cons, List.mem_cons, not_or] at h
    rw [List.flatMap_cons, List.count_append, ih h.2]
    rcases hf a with hfa | hfa <;> rw [hfa]
    · rfl
    · simp [List.count_singleton', Ne.symm h.1]

/-- With duplicate-free snapshot ids, each id is delivered at most once
per run. -/
theorem flatMap_sends_count (f : SchedAppt → List String)
    (hf : ∀ a, f a = [] ∨ f a = [a.id]) (id : String) :
    ∀ rows : List SchedAppt, (rows.map (fun r => r.id)).Nodup →
      (rows.flatMap f).count id ≤ 1 := by
  intro rows
  induction rows with
  | nil => intro _; simp
  | cons a rest ih =>
    intro h
    rw [List.map_cons, List.nodup_cons] at h
    rw [List.flatMap_cons, List.count_append]
    by_cases hid : id = a.id
    · have h0 := flatMap_sends_count_zero f hf id rest (by rw [hid]; exact h.1)
      rw [h0]
      rcases hf a with hfa | hfa <;> simp [hfa, List.count_singleton', hid]
    · rcases hf a with hfa | hfa
      · simpa [hfa] using ih h.2
      · have : List.count id (f a) = 0 := by
          rw [hfa]
          simp [List.count_singleton', Ne.symm hid]
        rw [this]
        simpa using ih h.2

/-- Generic at-most-once bound for a marker-guarded notification job run
twice in immediate succession over the same state: markers written by the
first run suppress the second run's sends. -/
theorem notifJob_twice_bound (process : SchedAppt → Bool × Nat) (marker ts : String)
    (pred : SchedAppt → Bool)
    (h21 : ∀ a, (process a).2 = 1 → (process a).1 = true)
    (hskip : ∀ a, containsStr a.notes marker = true → process a = (false, 0))
    (db : List SchedAppt) (hids : (db.map (fun r => r.id)).Nodup) (id : String) :
    ((notifLoop process marker ts (db.filter pred) (db, [])).2.count id) +
      ((notifLoop process marker ts
          ((notifLoop process marker ts (db.filter pred) (db, [])).1.filter pred)
          ((notifLoop process marker ts (db.filter pred) (db, [])).1, [])).2.count id) ≤ 1 := by
  have hf : ∀ a : SchedAppt, (if (process a).2 = 1 then [a.id] else []) = [] ∨
      (if (process a).2 = 1 then [a.id] else []) = [a.id] := by
    intro a
    by_cases h : (process a).2 = 1 <;> simp [h]
  have hs1 := notifLoop_sends process marker ts (db.filter pred) db []
  have hd1 := notifLoop_db process marker ts (db.filter pred) db []
  have hs2 := notifLoop_sends process marker ts
    ((notifLoop process marker ts (db.filter pred) (db, [])).1.filter pred)
    (notifLoop process marker ts (db.filter pred) (db, [])).1 []
  rw [List.nil_append] at hs1 hs2
  have hrow1 : ((db.filter pred).map (fun r => r.id)).Nodup :=
    ((List.filter_sublist db).map _).nodup hids
  have hids1 : ((notifLoop process marker ts (db.filter pred) (db, [])).1.map
      (fun r => r.id)).Nodup := by
    rw [hd1, foldDb_map_id]
    exact hids
  have hrow2 : (((notifLoop process marker ts (db.filter pred) (db, [])).1.filter pred).map
      (fun r => r.id)).Nodup :=
    ((List.filter_sublist _).map _).nodup hids1
  have hc1 := flatMap_sends_count _ hf id (db.filter pred) hrow1
  have hc2 := flatMap_sends_count _ hf id
    ((notifLoop process marker ts (db.filter pred) (db, [])).1.filter pred) hrow2
  rw [hs1, hs2]
  by_cases hmem : id ∈ (db.filter pred).flatMap
      (fun a => if (process a).2 = 1 then [a.id] else [])
  · obtain ⟨a, ha, hina⟩ := List.mem_flatMap.mp hmem
    have h2eq : (process a).2 = 1 := by
      by_cases h : (process a).2 = 1
      · exact h
      · simp [h] at hina
    have hida : id = a.id := by
      rw [if_pos h2eq] at hina
      simpa using hina
    have hmk := foldDb_marks process marker ts (db.filter pred) db a ha (h21 a h2eq)
    have hzero : (((notifLoop process marker ts (db.filter pred) (db, [])).1.filter
        pred).flatMap (fun a => if (process a).2 = 1 then [a.id] else [])).count id = 0 := by
      rw [List.count_eq_zero]
      intro hc
      obtain ⟨a2, ha2, hina2⟩ := List.mem_flatMap.mp hc
      have h2eq2 : (process a2).2 = 1 := by
        by_cases h : (process a2).2 = 1
        · exact h
        · simp [h] at hina2
      have hida2 : id = a2.id := by
        rw [if_pos h2eq2] at hina2
        simpa using hina2
      have ha2db : a2 ∈ (notifLoop process marker ts (db.filter pred) (db, [])).1 :=
        List.mem_of_mem_filter ha2
      rw [hd1] at ha2db
      have hm : containsStr a2.notes marker = true := by
        apply hmk a2 ha2db
        rw [← hida2, hida]
      have hps := hskip a2 hm
      rw [hps] at h2eq2
      simp at h2eq2
    rw [hzero]
    omega
  · have hz1 : ((db.filter pred).flatMap
        (fun a => if (process a).2 = 1 then [a.id] else [])).count id = 0 :=
      List.count_eq_zero.mpr hmem
    rw [hz1]
    simpa using hc2

/-- Marker-guarded skip of the morning job. -/
theorem processMorning_skip (w : SchedWorld) (a : SchedAppt)
    (h : containsStr a.notes "morning_confirm" = true) :
    processMorningAppt w a = (false, 0) := by
  simp [processMorningAppt, h]

/-- Marker-guarded skip of the reminder job. -/
theorem processReminder_skip (w : SchedWorld) (a : SchedAppt)
    (h : containsStr a.notes "reminder_1h" = true) :
    processReminderAppt w a = (false, 0) := by
  simp [processReminderAppt, h]

/-- A delivered morning confirmation always sets the `sent` flag. -/
theorem processMorning_flag (w : SchedWorld) (a : SchedAppt)
    (h : (processMorningAppt w a).2 = 1) : (processMorningAppt w a).1 = true := by
  by_cases h1 : containsStr a.notes "morning_confirm" = true
  · simp [processMorningAppt, h1] at h
  · by_cases h2 : (a.clientPhone.isNone || a.tenantCreds.isNone) = true
    · simp [processMorningAppt, h1, h2] at h
    · cases hb : w.buttonOutcome a.id <;> cases htp : w.templateOutcome a.id <;>
        simp_all [processMorningAppt, h1, h2]

/-- A delivered reminder always sets the `sent` flag. -/
theorem processReminder_flag (w : SchedWorld) (a : SchedAppt)
    (h : (processReminderAppt w a).2 = 1) : (processReminderAppt w a).1 = true := by
  by_cases h1 : containsStr a.notes "reminder_1h" = true
  · simp [processReminderAppt, h1] at h
  · by_cases h2 : (a.clientPhone.isNone || a.tenantCreds.isNone) = true
    · simp [processReminderAppt, h1, h2] at h
    · cases ht : w.textOutcome a.id <;> simp_all [processReminderAppt, h1, h2]

/-- C7 amended: appointments already carrying the marker are skipped with
zero sends, a send attempt that raises an exception leaves no marker, and
running either job twice in immediate succession delivers at most one
message per appointment; however, a delivery failure reported as an API
error response (a `None` return, no exception) still appends the marker
on the template-fallback and reminder paths, so such failed deliveries
are recorded as sent and never retried. -/
theorem notification_jobs_idempotency (w : SchedWorld) (db : List SchedAppt)
    (hids : (db.map (fun r => r.id)).Nodup) :
    (∀ a, containsStr a.notes "morning_confirm" = true →
      processMorningAppt w a = (false, 0))
    ∧ (∀ a, containsStr a.notes "reminder_1h" = true →
      processReminderAppt w a = (false, 0))
    ∧ (∀ a, w.textOutcome a.id = SendOutcome.exn → processReminderAppt w a = (false, 0))
    ∧ (∀ a, w.buttonOutcome a.id ≠ SendOutcome.ok →
        w.templateOutcome a.id = SendOutcome.exn → processMorningAppt w a = (false, 0))
    ∧ (∀ id, ((sendMorningConfirmations w db).2.count id +
        (sendMorningConfirmations w (sendMorningConfirmations w db).1).2.count id) ≤ 1)
    ∧ (∀ id, ((sendReminder1h w db).2.count id +
        (sendReminder1h w (sendReminder1h w db).1).2.count id) ≤ 1) := by
  refine ⟨processMorning_skip w, processReminder_skip w, ?_, ?_, ?_, ?_⟩
  · intro a h
    by_cases h1 : containsStr a.notes "reminder_1h" = true
    · simp [processReminderAppt, h1]
    · by_cases h2 : (a.clientPhone.isNone || a.tenantCreds.isNone) = true
      · simp [processReminderAppt, h1, h2]
      · simp [processReminderAppt, h1, h2, h]
  · intro a hbne htp
    by_cases h1 : containsStr a.notes "morning_confirm" = true
    · simp [processMorningAppt, h1]
    · by_cases h2 : (a.clientPhone.isNone || a.tenantCreds.isNone) = true
      · simp [processMorningAppt, h1, h2]
      · cases hb : w.buttonOutcome a.id
        · exact absurd hb hbne
        · simp [processMorningAppt, h1, h2, hb, htp]
        · simp [processMorningAppt, h1, h2, hb, htp]
  · intro id
    by_cases hq : w.queryFail = true
    · simp [sendMorningConfirmations, hq]
    · simp only [sendMorningConfirmations, morningRows, hq, Bool.false_eq_true, if_false]
      exact notifJob_twice_bound (processMorningAppt w) "morning_confirm" w.nowStr
        (fun a => a.status == Status.pending &&
          decide (tomorrowStartUtc w.nowMinute w.romeOffset ≤ a.start_at) &&
          decide (a.start_at < tomorrowEndUtc w.nowMinute w.romeOffset))
        (processMorning_flag w) (processMorning_skip w) db hids id
  · intro id
    by_cases hq : w.queryFail = true
    · simp [sendReminder1h, hq]
    · simp only [sendReminder1h, reminderRows, hq, Bool.false_eq_true, if_false]
      exact notifJob_twice_bound (processReminderAppt w) "reminder_1h" w.nowStr
        (fun a => a.status == Status.confirmed &&
          decide (w.nowMinute + 60 ≤ a.start_at) && decide (a.start_at < w.nowMinute + 65))
        (processReminder_flag w) (processReminder_skip w) db hids id

/-- World for the C7 counterexample: one confirmed appointment sits in the
reminder window and the text send hits an API error (the helper returns
None: delivery failed, no exception). -/
def wC7 : SchedWorld where
  queryFail := false
  buttonOutcome := fun _ => SendOutcome.ok
  templateOutcome := fun _ => SendOutcome.ok
  textOutcome := fun _ => SendOutcome.apiError
  nowMinute := 0
  romeOffset := 60
  nowStr := "ts"

/-- Table for the C7 scenarios: one confirmed appointment 62 minutes
ahead, with client phone and tenant credentials present. -/
def dbC7 : List SchedAppt :=
  [⟨"a1", Status.confirmed, 62, "", some "393331234567", some "tok"⟩]

/-- C7 counterexample: the reminder delivery fails with an API error
response, zero messages are delivered, yet the reminder_1h marker is
appended to the appointment, so the failed delivery is never retried -
refuting "a marker is appended only after a successful delivery, and a
failed delivery leaves no marker". -/
theorem reminder_marker_without_delivery :
    (sendReminder1h wC7 dbC7).2 = [] ∧
      (sendReminder1h wC7 dbC7).1 =
        [⟨"a1", Status.confirmed, 62, "\n[reminder_1h:ts]", some "393331234567",
          some "tok"⟩] := by
  decide

/-- World for the C7 witness: the reminder send succeeds. -/
def wC7w : SchedWorld where
  queryFail := false
  buttonOutcome := fun _ => SendOutcome.ok
  templateOutcome := fun _ => SendOutcome.ok
  textOutcome := fun _ => SendOutcome.ok
  nowMinute := 0
  romeOffset := 60
  nowStr := "ts"

/-- Witness for the amended C7 theorem: a deliverable reminder goes out at
most once across two immediate runs. -/
theorem notification_jobs_idempotency_witness :
    ((sendReminder1h wC7w dbC7).2.count "a1" +
      (sendReminder1h wC7w (sendReminder1h wC7w dbC7).1).2.count "a1") ≤ 1 :=
  (notification_jobs_idempotency wC7w dbC7 (by decide)).2.2.2.2.2 "a1"

end Bot
